import Mathlib

/-!
# goonvif: the device session core (`Device.go`)

A shallow embedding of `Device.go` of `atagirov/goonvif`: the device session,
its endpoint directory, the clock synchroniser, the dispatcher `CallMethod`,
session construction `NewDeviceWithUser` and WS-Discovery with deduplication.

Conventions of the embedding

* A Go `string` is a Lean `String`.  Only the ASCII separators `" "` and `"/"`
  are ever searched for, so splitting on characters agrees with splitting the
  UTF-8 bytes.
* A Go `error` value is represented by the text its `Error()` method returns;
  the `nil` error is `none`.
* A run-time panic (nil dereference, index out of range) is the result `none`
  of a function returning `Option`.
* `int` and `time.Duration` are 64 bit wide; 64-bit arithmetic that can overflow is
  written with `wrapInt64` and `wrapUint64`.
* Everything the package reaches through an import (XML parsing and
  marshalling, the HTTP transport, the wall clock, the WS-Discovery probe) is a
  field of `Env`.  The network is observed through the list of requests handed to
  `networking.SendSoap` so far; a reply may depend on that history.
* Output written with `fmt.Println` is not modelled.
-/

namespace Goonvif

/-! ## Go strings -/

/-- Pieces of `l` between occurrences of `sep`; never the empty list. -/
def splitOn (sep : Char) : List Char → List (List Char)
  | [] => [[]]
  | c :: cs =>
    if c = sep then [] :: splitOn sep cs
    else
      match splitOn sep cs with
      | [] => [[c]]
      | seg :: rest => (c :: seg) :: rest

/-- The function `strings.Split(s, sep)` for a one-character separator. -/
def Split (s : String) (sep : Char) : List String :=
  (splitOn sep s.data).map String.mk

/-- Largest and smallest value of a 64-bit `int`. -/
def maxInt64 : Int := 9223372036854775807

def minInt64 : Int := -9223372036854775808

/-- The byte is one of `'0'..'9'`. -/
def isDigit (c : Char) : Bool := decide ('0'.toNat ≤ c.toNat) && decide (c.toNat ≤ '9'.toNat)

/-- Value of a string of decimal digits. -/
def digitsValue (ds : List Char) : Int :=
  ds.foldl (fun acc ch => acc * 10 + ((ch.toNat : Int) - 48)) 0

/-- The function `strconv.Atoi`: the value and the error.  A syntax error yields
`0`, a value out of the 64-bit range yields the nearest bound. -/
def Atoi (s : String) : Int × Option String :=
  let invalid : Int × Option String :=
    (0, some ("strconv.Atoi: parsing \"" ++ s ++ "\": invalid syntax"))
  let outOfRange : Option String :=
    some ("strconv.Atoi: parsing \"" ++ s ++ "\": value out of range")
  match s.data with
  | [] => invalid
  | c :: rest =>
    let neg := decide (c = '-')
    let digits := if c = '-' ∨ c = '+' then rest else c :: rest
    if digits.isEmpty || !digits.all isDigit then invalid
    else
      let n := digitsValue digits
      let v := if neg then -n else n
      if v > maxInt64 then (maxInt64, outOfRange)
      else if v < minInt64 then (minInt64, outOfRange)
      else (v, none)

/-! ## `etree` documents -/

/-- An XML element as `etree` exposes it: its local tag, the character data
right after the opening tag (`Text()`), and its child elements in document
order.  A document is the unnamed element whose children are the top-level
elements. -/
inductive Element where
  | mk (Tag : String) (text : String) (Child : List Element)

namespace Element

def Tag : Element → String
  | mk t _ _ => t

/-- The method `Text()`. -/
def Text : Element → String
  | mk _ t _ => t

def Child : Element → List Element
  | mk _ _ c => c

/-- The method `SelectElement(tag)`: the first child element with that tag, or nil. -/
def SelectElement (e : Element) (tag : String) : Option Element :=
  e.Child.find? (fun c => c.Tag == tag)

/-- The method `Root()` of a document: its first child element, or nil. -/
def Root (doc : Element) : Option Element :=
  doc.Child.head?

end Element

/-- An element found by a path query, with the value of its `Parent()`. -/
structure Found where
  Parent : Option Element
  elem : Element

/-- One step of a compiled path: a tag name, or `*` for any child element. -/
inductive Segment where
  | tag (name : String)
  | any

def Segment.selects : Segment → Element → Bool
  | .tag name, e => e.Tag == name
  | .any, _ => true

/-- Children of the candidates selected by one path segment, in document order. -/
def selectChildren (seg : Segment) (cands : List Found) : List Found :=
  cands.flatMap (fun c => (c.elem.Child.filter seg.selects).map (fun ch => ⟨some c.elem, ch⟩))

/-- The method `FindElements(path)` for a path `./s₁/s₂/…` (or `s₁/s₂/…`) of
child steps, evaluated from `e`. -/
def FindElements (e : Element) (path : List Segment) : List Found :=
  path.foldl (fun cands seg => selectChildren seg cands) [⟨none, e⟩]

/-- The method `FindElement(path)`: the first match, or nil. -/
def FindElement (e : Element) (path : List Segment) : Option Element :=
  ((FindElements e path).head?).map Found.elem

/-! ## `time` -/

/-- The value of a signed 64-bit integer after an operation whose exact result
is `x`. -/
def wrapInt64 (x : Int) : Int :=
  (x + 9223372036854775808) % 18446744073709551616 - 9223372036854775808

/-- The value of an unsigned 64-bit integer after an operation whose exact result
is `x`; also the conversion `uint64(x)`. -/
def wrapUint64 (x : Int) : Int := x % 18446744073709551616

/-- The helper `norm` of package `time`: carries `lo` into `hi` until
`0 ≤ lo < base`.  For a 64-bit `lo < 0` the value `-lo - 1` is exact, and the
new `lo` lies in `[0, base)`; only the carry into `hi` can overflow. -/
def norm (hi lo base : Int) : Int × Int :=
  let p : Int × Int :=
    if lo < 0 then
      let n := (-lo - 1) / base + 1
      (wrapInt64 (hi - n), lo + n * base)
    else (hi, lo)
  if p.2 ≥ base then
    let n := p.2 / base
    (wrapInt64 (p.1 + n), p.2 - n * base)
  else p

def isLeap (year : Int) : Bool :=
  decide (year % 4 = 0) && (decide (year % 100 ≠ 0) || decide (year % 400 = 0))

/-- The table `daysBefore`: days in a non-leap year before month `m + 1`. -/
def daysBefore : List Int :=
  [0, 31, 59, 90, 120, 151, 181, 212, 243, 273, 304, 334, 365]

def absoluteZeroYear : Int := -292277022399

/-- The constant `absoluteToInternal + internalToUnix`: seconds from the absolute
epoch to the Unix epoch, negated. -/
def absoluteToUnix : Int := -9223372028715321600

/-- The constant `unixToInternal`: seconds from 1 January of year 1 to the Unix
epoch. -/
def unixToInternal : Int := 62135596800

/-- A `time.Time` without monotonic clock reading: `ext` holds the seconds since
1 January of year 1, 00:00:00 UTC, as a signed 64-bit integer, and `nsec` the
nanoseconds within the second (the low bits of `wall`). -/
structure Time where
  ext : Int
  nsec : Int
  deriving DecidableEq, Repr

/-- The function `time.Date(year, month, day, hour, min, sec, nsec, time.UTC)`,
following the library's algorithm in its cycle-counting form: normalisation of
out-of-range fields, then 400-, 100-, 4- and 1-year cycles counted in `uint64`
from the absolute zero year, the seconds converted to `int64`, and `unixTime`
storing them counted from year 1.  Sums and products of `uint64` values are exact modulo 2^64, so the day
count is reduced once, where it is converted. -/
def Date (year month day hour min sec nsec : Int) : Time :=
  let ym := norm year (wrapInt64 (month - 1)) 12
  let year := ym.1
  let month := ym.2 + 1
  let sn := norm sec nsec 1000000000
  let ms := norm min sn.1 60
  let hm := norm hour ms.1 60
  let dh := norm day hm.1 24
  let y := wrapUint64 (year - absoluteZeroYear)
  let n400 := y / 400
  let y := y - 400 * n400
  let d := 146097 * n400
  let n100 := y / 100
  let y := y - 100 * n100
  let d := d + 36524 * n100
  let n4 := y / 4
  let y := y - 4 * n4
  let d := d + 1461 * n4
  let d := d + 365 * y
  let d := d + daysBefore.getD (month - 1).toNat 0
  let d := if isLeap year && decide (month ≥ 3) then d + 1 else d
  let d := d + (dh.1 - 1)
  let abs := wrapUint64 (d * 86400 + (dh.2 * 3600 + hm.2 * 60 + ms.2))
  let unix := wrapInt64 (abs + absoluteToUnix)
  ⟨wrapInt64 (unix + unixToInternal), sn.2⟩

/-- Nanoseconds since 1 January of year 1, 00:00:00 UTC. -/
def Time.nanos (t : Time) : Int := t.ext * 1000000000 + t.nsec

/-- The method `t.Sub(u)`: the duration `t - u` in nanoseconds; when it does
not fit a 64-bit `Duration` the largest (or smallest) duration is returned. -/
def Time.Sub (t u : Time) : Int :=
  let d := t.nanos - u.nanos
  if d > maxInt64 then maxInt64 else if d < minInt64 then minInt64 else d

/-! ## Collaborators -/

/-- An HTTP response: status code and body bytes. -/
structure Response where
  StatusCode : Int
  Body : String
  deriving DecidableEq, Repr

/-- Arguments of a WS-Security header. -/
structure WSSecurity where
  username : String
  password : String
  diff : Int
  deriving DecidableEq, Repr

/-- Modelled from the spec: `gosoap.SoapMessage` (package `gosoap` of this
repository is not among the sources).  An envelope wraps one payload element
and carries namespace declarations and zero or one security header. -/
structure SoapMessage where
  body : Option Element
  namespaces : List (String × String)
  security : Option WSSecurity

namespace SoapMessage

/-- Modelled from the spec: `gosoap.NewEmptySOAP`, an envelope without payload,
namespaces or header. -/
def NewEmptySOAP : SoapMessage := ⟨none, [], none⟩

/-- Modelled from the spec: `AddBodyContent`, the element becomes the body
content. -/
def AddBodyContent (msg : SoapMessage) (element : Option Element) : SoapMessage :=
  { msg with body := element }

/-- Modelled from the spec: `AddRootNamespaces`, the namespaces are attached at
the envelope root. -/
def AddRootNamespaces (msg : SoapMessage) (ns : List (String × String)) : SoapMessage :=
  { msg with namespaces := msg.namespaces ++ ns }

/-- Modelled from the spec: `AddWSSecurity`, a security header generated from
the credentials and the clock offset is attached at the header position. -/
def AddWSSecurity (msg : SoapMessage) (username password : String) (diff : Int) :
    SoapMessage :=
  { msg with security := some ⟨username, password, diff⟩ }

end SoapMessage

/-- A call of `networking.SendSoap(endpoint, message)`. -/
structure Request where
  endpoint : String
  message : SoapMessage

/-- An operation value passed to `CallMethod`: the import path of the package
that declares its type (`reflect.TypeOf(method).PkgPath()`), the type name and
the values of its fields. -/
structure Method where
  PkgPath : String
  Name : String
  Fields : List (String × String)
  deriving DecidableEq, Repr

/-- The imported primitives. -/
structure Env where
  /-- The function `xml.MarshalIndent(method, "  ", "    ")`. -/
  MarshalIndent : Method → Except String String
  /-- The methods `ReadFromString` and `ReadFromBytes` of an `etree` document: the
  document read, or `none` for an error. -/
  ReadFromString : String → Option Element
  /-- The function `networking.SendSoap`, given the requests sent before. -/
  SendSoap : List Request → String → SoapMessage → Except String Response
  /-- The value of `time.Now().UTC()`, given the requests sent before. -/
  Now : List Request → Time
  /-- The function `WS_Discovery.SendProbe(interfaceName, scopes, types, namespaces)`. -/
  SendProbe : String → List String → List String → List (String × String) → List String

/-! ## `Device.go` -/

def Xlmns : List (String × String) :=
  [("onvif", "http://www.onvif.org/ver10/schema"),
   ("tds", "http://www.onvif.org/ver10/device/wsdl"),
   ("trt", "http://www.onvif.org/ver10/media/wsdl"),
   ("tev", "http://www.onvif.org/ver10/events/wsdl"),
   ("tptz", "http://www.onvif.org/ver20/ptz/wsdl"),
   ("timg", "http://www.onvif.org/ver20/imaging/wsdl"),
   ("tan", "http://www.onvif.org/ver20/analytics/wsdl"),
   ("xmime", "http://www.w3.org/2005/05/xmlmime"),
   ("wsnt", "http://docs.oasis-open.org/wsn/b-2"),
   ("xop", "http://www.w3.org/2004/08/xop/include"),
   ("wsa", "http://www.w3.org/2005/08/addressing"),
   ("wstop", "http://docs.oasis-open.org/wsn/t-1"),
   ("wsntw", "http://docs.oasis-open.org/wsn/bw-2"),
   ("wsrf-rw", "http://docs.oasis-open.org/wsrf/rw-2"),
   ("wsaw", "http://www.w3.org/2006/05/addressing/wsdl")]

/-- The type `DeviceType`, an `int`. -/
abbrev DeviceType := Int

def NVD : DeviceType := 0

def NVS : DeviceType := 1

def NVA : DeviceType := 2

def NVT : DeviceType := 3

/-- The method `String()`; `uint8(devType)` is the value modulo 256. -/
def DeviceType.String (devType : DeviceType) : String :=
  let stringRepresentation :=
    ["NetworkVideoDisplay", "NetworkVideoStorage", "NetworkVideoAnalytics",
     "NetworkVideoTransmitter"]
  let i := (devType % 256).toNat
  if i ≤ (NVT % 256).toNat then stringRepresentation.getD i "" else toString i

structure deviceInfo where
  Manufacturer : String
  Model : String
  FirmwareVersion : String
  SerialNumber : String
  HardwareId : String
  deriving DecidableEq, Repr

/-- A Go `map[string]string`: the value stored under each key, if any. -/
abbrev StringMap := String → Option String

/-- The index expression `m[key]`: the stored value, or `""`. -/
def StringMap.index (m : StringMap) (key : String) : String := (m key).getD ""

/-- The assignment `m[key] = value`. -/
def StringMap.set (m : StringMap) (key value : String) : StringMap :=
  fun k => if k = key then some value else m k

structure device where
  xaddr : String
  login : String
  password : String
  timeDiff : Int
  endpoints : StringMap
  info : deviceInfo

namespace device

def GetServices (dev : device) : StringMap := dev.endpoints

def addEndpoint (dev : device) (Key Value : String) : device :=
  { dev with endpoints := dev.endpoints.set Key Value }

def Authenticate (dev : device) (username password : String) : device :=
  { dev with login := username, password := password }

def GetEndpoint (dev : device) (name : String) : String := dev.endpoints.index name

end device

structure onvifError where
  Message : String
  Inner : Option String
  deriving DecidableEq, Repr

def newOnvifError (message : String) (inner : Option String) : onvifError :=
  ⟨message, inner⟩

/-- The method `Error()`; calling `Error()` on the nil `Inner` panics. -/
def onvifError.Error (e : onvifError) : Option String :=
  match e.Inner with
  | none => none
  | some inner => some (e.Message ++ ":" ++ inner)

def buildMethodSOAP (env : Env) (msg : String) : Except String SoapMessage :=
  match env.ReadFromString msg with
  | none => .error "etree: invalid XML format"
  | some doc =>
    let element := doc.Root
    let soap := SoapMessage.NewEmptySOAP
    .ok (soap.AddBodyContent element)

namespace device

def callNonAuthorizedMethod (env : Env) (_dev : device) (endpoint : String) (method : Method)
    (sent : List Request) : Except String Response × List Request :=
  match env.MarshalIndent method with
  | .error err => (.error err, sent)
  | .ok output =>
    match buildMethodSOAP env output with
    | .error err => (.error err, sent)
    | .ok soap =>
      let soap := soap.AddRootNamespaces Xlmns
      (env.SendSoap sent endpoint soap, sent ++ [⟨endpoint, soap⟩])

def callAuthorizedMethod (env : Env) (dev : device) (endpoint : String) (method : Method)
    (sent : List Request) : Except String Response × List Request :=
  match env.MarshalIndent method with
  | .error err => (.error err, sent)
  | .ok output =>
    match buildMethodSOAP env output with
    | .error err => (.error err, sent)
    | .ok soap =>
      let soap := soap.AddRootNamespaces Xlmns
      let soap := soap.AddWSSecurity dev.login dev.password dev.timeDiff
      (env.SendSoap sent endpoint soap, sent ++ [⟨endpoint, soap⟩])

/-- The method `CallMethod`: the pair returned, and the requests sent so far.
`pkgPath[len(pkgPath)-1]` always exists since `Split` returns at least one piece. -/
def CallMethod (env : Env) (dev : device) (method : Method) (sent : List Request) :
    Except String Response × List Request :=
  let pkgPath := Split method.PkgPath '/'
  let pkg := pkgPath.getLastD ""
  let endpoint :=
    if pkg = "Device" then dev.endpoints.index "Device"
    else if pkg = "Event" then dev.endpoints.index "Event"
    else if pkg = "Imaging" then dev.endpoints.index "Imaging"
    else if pkg = "Media" then dev.endpoints.index "Media"
    else if pkg = "PTZ" then dev.endpoints.index "PTZ"
    else ""
  if dev.login ≠ "" ∧ dev.password ≠ "" then
    dev.callAuthorizedMethod env endpoint method sent
  else
    dev.callNonAuthorizedMethod env endpoint method sent

/-- The method `getSupportedServices`.  A match of a path with at least one step
was reached from its parent, so `j.Parent()` is not nil. -/
def getSupportedServices (env : Env) (dev : device) (resp : Response) : device :=
  match env.ReadFromString resp.Body with
  | none => dev
  | some doc =>
    let services := FindElements doc
      [.tag "Envelope", .tag "Body", .tag "GetCapabilitiesResponse", .tag "Capabilities",
       .any, .tag "XAddr"]
    services.foldl
      (fun dev j => dev.addEndpoint ((j.Parent.map Element.Tag).getD "") j.elem.Text) dev

/-- The method `checkSystemDateAndTime`, with `currentTime` the value read from
the clock in its first statement.  The result `none` is the nil dereference of
`SelectElement` or `Text` on a missing element. -/
def checkSystemDateAndTime (env : Env) (currentTime : Time) (dev : device) (resp : Response) :
    Option device :=
  match env.ReadFromString resp.Body with
  | none => some dev
  | some doc =>
    match FindElement doc
      [.tag "Envelope", .tag "Body", .tag "GetSystemDateAndTimeResponse",
       .tag "SystemDateAndTime", .tag "UTCDateTime"] with
    | none => some dev
    | some utcDateTimeElement =>
      let timeElement := FindElement utcDateTimeElement [.tag "Time"]
      let dateElement := FindElement utcDateTimeElement [.tag "Date"]
      let field (parent : Option Element) (tag : String) : Option Int :=
        (parent.bind (fun p => p.SelectElement tag)).map (fun e => (Atoi e.Text).1)
      (field dateElement "Year").bind fun year =>
      (field dateElement "Month").bind fun month =>
      (field dateElement "Day").bind fun day =>
      (field timeElement "Hour").bind fun hour =>
      (field timeElement "Minute").bind fun minute =>
      (field timeElement "Second").bind fun second =>
      let deviceTime := Date year month day hour minute second 0
      some { dev with timeDiff := deviceTime.Sub currentTime }

end device

/-- The value `Device.GetSystemDateAndTime{}`; package `Device` is imported from
`github.com/atagirov/goonvif/Device`. -/
def GetSystemDateAndTime : Method :=
  ⟨"github.com/atagirov/goonvif/Device", "GetSystemDateAndTime", []⟩

/-- The value `Device.GetCapabilities{Category: ...}`. -/
def GetCapabilities (Category : String) : Method :=
  ⟨"github.com/atagirov/goonvif/Device", "GetCapabilities", [("Category", Category)]⟩

/-- The function `NewDeviceWithUser`: the pair returned (an error, or the
session) and the requests sent so far; `none` when it panics. -/
def NewDeviceWithUser (env : Env) (xaddr login password : String) (sent : List Request) :
    Option (Except onvifError device × List Request) :=
  let dev : device := ⟨xaddr, "", "", 0, fun _ => none, ⟨"", "", "", "", ""⟩⟩
  let dev := dev.addEndpoint "Device" ("http://" ++ xaddr ++ "/onvif/device_service")
  let unavailable :=
    "camera is not available at " ++ xaddr ++ " or it does not support ONVIF services"
  match dev.CallMethod env GetSystemDateAndTime sent with
  | (.error err, sent) => some (.error (newOnvifError unavailable (some err)), sent)
  | (.ok resp, sent) =>
    if resp.StatusCode ≠ 200 then some (.error (newOnvifError unavailable none), sent)
    else
      match dev.checkSystemDateAndTime env (env.Now sent) resp with
      | none => none
      | some dev =>
        let dev := if login ≠ "" then { dev with login := login, password := password } else dev
        match dev.CallMethod env (GetCapabilities "All") sent with
        | (.error err, sent) => some (.error (newOnvifError unavailable (some err)), sent)
        | (.ok resp, sent) =>
          if resp.StatusCode ≠ 200 then some (.error (newOnvifError unavailable none), sent)
          else some (.ok (dev.getSupportedServices env resp), sent)

def NewDevice (env : Env) (xaddr : String) (sent : List Request) :
    Option (Except onvifError device × List Request) :=
  NewDeviceWithUser env xaddr "" "" sent

/-! ## Discovery -/

/-- The expression `strings.Split(strings.Split(text, " ")[0], "/")[2]`; `none`
is the index-out-of-range panic. -/
def hostOfXAddrs (text : String) : Option String :=
  ((Split text ' ')[0]?).bind fun first => (Split first '/')[2]?

/-- The loop `for _, xaddr := range endpoints` of
`GetAvailableDevicesAtSpecificEthernetInterface`, with the constructor it calls
as a parameter: `construct address state` is `none` for a panic, else the pair
returned by the constructor and the new state. -/
def probeMatchLoop {σ : Type} (construct : String → σ → Option (Except onvifError device × σ)) :
    List Found → List device → σ → Option (List device × σ)
  | [], nvtDevices, st => some (nvtDevices, st)
  | x :: rest, nvtDevices, st =>
    match hostOfXAddrs x.elem.Text with
    | none => none
    | some xaddr =>
      let c := nvtDevices.findIdx (fun d => d.xaddr == xaddr)
      if c < nvtDevices.length then probeMatchLoop construct rest nvtDevices st
      else
        match construct ((Split xaddr ' ').headD "") st with
        | none => none
        | some (.error _, st) => probeMatchLoop construct rest nvtDevices st
        | some (.ok dev, st) => probeMatchLoop construct rest (nvtDevices ++ [dev]) st

/-- The loop `for _, j := range devices`.  An announcement that cannot be read
makes the function return nil (the empty list); a document without a root
element makes `FindElements` dereference nil. -/
def announcementLoop {σ : Type} (env : Env)
    (construct : String → σ → Option (Except onvifError device × σ)) :
    List String → List device → σ → Option (List device × σ)
  | [], nvtDevices, st => some (nvtDevices, st)
  | j :: rest, nvtDevices, st =>
    match env.ReadFromString j with
    | none => some ([], st)
    | some doc =>
      match doc.Root with
      | none => none
      | some root =>
        let endpoints := FindElements root
          [.tag "Body", .tag "ProbeMatches", .tag "ProbeMatch", .tag "XAddrs"]
        match probeMatchLoop construct endpoints nvtDevices st with
        | none => none
        | some (nvtDevices, st) => announcementLoop env construct rest nvtDevices st

/-- The announcements returned by the probe for NVT devices. -/
def probe (env : Env) (interfaceName : String) : List String :=
  env.SendProbe interfaceName [] ["dn:" ++ DeviceType.String NVT]
    [("dn", "http://www.onvif.org/ver10/network/wsdl")]

/-- The body of `GetAvailableDevicesAtSpecificEthernetInterface` over an
arbitrary session constructor. -/
def discoverWith {σ : Type} (env : Env)
    (construct : String → σ → Option (Except onvifError device × σ))
    (interfaceName : String) (st : σ) : Option (List device × σ) :=
  announcementLoop env construct (probe env interfaceName) [] st

/-- The function `GetAvailableDevicesAtSpecificEthernetInterface`: the list
returned and the requests sent so far; `none` when it panics. -/
def GetAvailableDevicesAtSpecificEthernetInterface (env : Env) (interfaceName : String)
    (sent : List Request) : Option (List device × List Request) :=
  discoverWith env (NewDevice env) interfaceName sent

/-! ## Observers and reference functions used in the statements -/

/-- Runs `construct` and records the address together with whether a session
was returned in a journal kept next to the state. -/
def journalled {σ : Type} (construct : String → σ → Option (Except onvifError device × σ)) :
    String → σ × List (String × Bool) →
      Option (Except onvifError device × (σ × List (String × Bool)))
  | xaddr, (st, journal) =>
    match construct xaddr st with
    | none => none
    | some (.error e, st) => some (.error e, (st, journal ++ [(xaddr, false)]))
    | some (.ok dev, st) => some (.ok dev, (st, journal ++ [(xaddr, true)]))

/-- The session `NewDeviceWithUser` holds when it dispatches the time query:
no credentials, no clock offset, and the bootstrap `Device` endpoint. -/
def freshSession (xaddr : String) : device :=
  (⟨xaddr, "", "", 0, fun _ => none, ⟨"", "", "", "", ""⟩⟩ : device).addEndpoint "Device"
    ("http://" ++ xaddr ++ "/onvif/device_service")

/-- The capability category of an operation: the last segment of the import
path of its package. -/
def category (method : Method) : String := (Split method.PkgPath '/').getLastD ""

/-- A journal in which a successful construction is the last entry of its address. -/
def JournalOk (journal : List (String × Bool)) : Prop :=
  ∀ pre a post, journal = pre ++ (a, true) :: post → a ∉ post.map Prod.fst

/-- What one candidate address does to the list of sessions when the outcome of a
construction is `f` of the address. -/
def accept (f : String → Except onvifError device) (nvt : List device) (a : String) :
    List device :=
  if a ∈ nvt.map device.xaddr then nvt
  else
    match f a with
    | .ok d => nvt ++ [d]
    | .error _ => nvt

/-- The candidate addresses of one discovery pass, in the order in which the
loops visit them. -/
def candidates (env : Env) (interfaceName : String) : List String :=
  (probe env interfaceName).flatMap fun j =>
    match (env.ReadFromString j).bind Element.Root with
    | none => []
    | some root =>
      (FindElements root
        [.tag "Body", .tag "ProbeMatches", .tag "ProbeMatch", .tag "XAddrs"]).filterMap
        fun x => hostOfXAddrs x.elem.Text

/-- Every announcement is a document with a root element, and every `XAddrs`
text in it has an index-2 segment. -/
def WellFormedAnnouncements (env : Env) (interfaceName : String) : Prop :=
  ∀ j ∈ probe env interfaceName, ∃ doc root,
    env.ReadFromString j = some doc ∧ doc.Root = some root ∧
    ∀ x ∈ FindElements root
        [.tag "Body", .tag "ProbeMatches", .tag "ProbeMatch", .tag "XAddrs"],
      (hostOfXAddrs x.elem.Text).isSome

/-- The distinct members of a list in order of first occurrence. -/
def firstOccurrences : List String → List String
  | [] => []
  | a :: l => a :: (firstOccurrences l).filter (fun b => b ≠ a)

/-- The category/XAddr pairs of a capability response, in document order. -/
def capabilityPairs (doc : Element) : List (String × String) :=
  (FindElements doc
    [.tag "Envelope", .tag "Body", .tag "GetCapabilitiesResponse", .tag "Capabilities",
     .any, .tag "XAddr"]).map fun j => ((j.Parent.map Element.Tag).getD "", j.elem.Text)

/-- The XAddr of the last pair with the given category. -/
def lastXAddr (pairs : List (String × String)) (category : String) : Option String :=
  (pairs.reverse.find? fun p => p.1 == category).map Prod.snd

/-- The journal of a pass over the candidates when `constructed` lists the
addresses that already have a session: a candidate that has a session is passed
over; every other candidate is attempted, which adds one entry to the journal
and, when a session is returned, its address to those that have one. -/
def Attempts : List String → List String → List (String × Bool) → Prop
  | _, [], journal => journal = []
  | constructed, a :: rest, journal =>
    if a ∈ constructed then Attempts constructed rest journal
    else ∃ r tail, journal = (a, r) :: tail ∧
      Attempts (if r = true then constructed ++ [a] else constructed) rest tail

/-- The leap-year rule of the Gregorian calendar. -/
def leapYear (year : Int) : Bool :=
  decide (year % 4 = 0) && (decide (year % 100 ≠ 0) || decide (year % 400 = 0))

/-- The lengths of the twelve months of a year. -/
def monthLengths (year : Int) : List Int :=
  [31, if leapYear year then 29 else 28, 31, 30, 31, 30, 31, 31, 30, 31, 30, 31]

/-- Days from 1 January of year 1 to 1 January of `year` in the proleptic
Gregorian calendar: 365 for every year and one more for every leap year. -/
def daysBeforeYear (year : Int) : Int :=
  365 * (year - 1) + (year - 1) / 4 - (year - 1) / 100 + (year - 1) / 400

/-- The UTC instant with the given calendar fields, in seconds since
0001-01-01 00:00:00 UTC. -/
def calendarSeconds (Y M D h m s : Int) : Int :=
  (daysBeforeYear Y + ((monthLengths Y).take (M - 1).toNat).sum + (D - 1)) * 86400 +
    h * 3600 + m * 60 + s

/-- The six fields denote a time of day on a day of the calendar, in a year the
library counts from its absolute zero year without overflow. -/
def CalendarFields (Y M D h m s : Int) : Prop :=
  (-292277022399 ≤ Y ∧ Y ≤ 292277022399) ∧ (1 ≤ M ∧ M ≤ 12) ∧ (1 ≤ D ∧ D ≤ 31) ∧
    (0 ≤ h ∧ h ≤ 23) ∧ (0 ≤ m ∧ m ≤ 59) ∧ (0 ≤ s ∧ s ≤ 59)

/-- The time-query response carries the six UTC fields, each an integer text. -/
def ValidTimeResponse (env : Env) (resp : Response) (Y M D h m s : Int) : Prop :=
  ∃ doc utc date time eY eM eD eh em es,
    env.ReadFromString resp.Body = some doc ∧
    FindElement doc
      [.tag "Envelope", .tag "Body", .tag "GetSystemDateAndTimeResponse",
       .tag "SystemDateAndTime", .tag "UTCDateTime"] = some utc ∧
    FindElement utc [.tag "Date"] = some date ∧
    FindElement utc [.tag "Time"] = some time ∧
    date.SelectElement "Year" = some eY ∧ Atoi eY.Text = (Y, none) ∧
    date.SelectElement "Month" = some eM ∧ Atoi eM.Text = (M, none) ∧
    date.SelectElement "Day" = some eD ∧ Atoi eD.Text = (D, none) ∧
    time.SelectElement "Hour" = some eh ∧ Atoi eh.Text = (h, none) ∧
    time.SelectElement "Minute" = some em ∧ Atoi em.Text = (m, none) ∧
    time.SelectElement "Second" = some es ∧ Atoi es.Text = (s, none)

/-! ## Sample documents and installations -/

def leaf (tag text : String) : Element := .mk tag text []

def node (tag : String) (children : List Element) : Element := .mk tag "" children

/-- A document with the given root element. -/
def document (root : Element) : Element := node "" [root]

def envelope (body : List Element) : Element :=
  document (node "Envelope" [node "Body" body])

/-- A `GetSystemDateAndTimeResponse` with a `UTCDateTime` made of the given
children. -/
def timeResponse (utc : List Element) : Element :=
  envelope [node "GetSystemDateAndTimeResponse"
    [node "SystemDateAndTime" [leaf "DateTimeType" "NTP", node "UTCDateTime" utc]]]

def timeFields (hour minute second : String) : Element :=
  node "Time" [leaf "Hour" hour, leaf "Minute" minute, leaf "Second" second]

def dateFields (year month day : String) : Element :=
  node "Date" [leaf "Year" year, leaf "Month" month, leaf "Day" day]

/-- A `GetCapabilitiesResponse` listing one `XAddr` per given category. -/
def capabilitiesResponse (services : List (String × String)) : Element :=
  envelope [node "GetCapabilitiesResponse"
    [node "Capabilities" (services.map fun p => node p.1 [leaf "XAddr" p.2])]]

/-- A WS-Discovery announcement with one `ProbeMatch` per given `XAddrs` text. -/
def probeMatches (xaddrs : List String) : Element :=
  envelope [node "ProbeMatches"
    (xaddrs.map fun x => node "ProbeMatch" [leaf "Types" "dn:NetworkVideoTransmitter",
      leaf "XAddrs" x])]

/-- An installation for examples: `documents` lists the texts the XML reader
accepts with the document each one denotes, `transport` answers a request from
its endpoint and the tag of its payload, the clock stands still at `now`, and
the probe returns `announcements`.  An operation is marshalled to an empty
element named after its type. -/
def installation (documents : List (String × Element))
    (transport : String → Option String → Except String Response) (now : Time)
    (announcements : List String) : Env where
  MarshalIndent := fun m => .ok ("<" ++ m.Name ++ "/>")
  ReadFromString := fun s =>
    if s = "<GetSystemDateAndTime/>" then some (document (leaf "GetSystemDateAndTime" ""))
    else if s = "<GetCapabilities/>" then some (document (leaf "GetCapabilities" ""))
    else if s = "<ContinuousMove/>" then some (document (leaf "ContinuousMove" ""))
    else documents.lookup s
  SendSoap := fun _ endpoint msg => transport endpoint (msg.body.map Element.Tag)
  Now := fun _ => now
  SendProbe := fun _ _ _ _ => announcements

/-- Noon of 1 March 2024 UTC. -/
def noon : Time := Date 2024 3 1 12 0 0 0

/-- The Unix epoch, what a clock that was never set shows. -/
def unixEpoch : Time := Date 1970 1 1 0 0 0 0

def sampleDocuments : List (String × Element) :=
  [("time: 2024-03-01 12:00:05",
      timeResponse [timeFields "12" "0" "5", dateFields "2024" "3" "1"]),
   ("time: no Date", timeResponse [timeFields "12" "0" "5"]),
   ("time: Year is abc", timeResponse [timeFields "12" "0" "5", dateFields "abc" "3" "1"]),
   ("time: 2400-01-01 00:00:00",
      timeResponse [timeFields "0" "0" "0", dateFields "2400" "1" "1"]),
   ("capabilities: Device, Media",
      capabilitiesResponse [("Device", "http://192.168.1.10:80/onvif/device_service"),
        ("Media", "http://192.168.1.10:80/onvif/media_service")]),
   ("capabilities: Media",
      capabilitiesResponse [("Media", "http://192.168.1.10:80/onvif/media_service")]),
   ("announcement: A A",
      probeMatches ["http://192.168.1.10:80/onvif/device_service",
        "http://192.168.1.10:80/onvif/device_service http://[fe80::1]/onvif/device_service"]),
   ("announcement: A B A", probeMatches ["http://192.168.1.10:80/onvif/device_service",
        "http://192.168.1.11:80/onvif/device_service",
        "http://192.168.1.10:80/onvif/device_service"]),
   ("announcement: C B", probeMatches ["http://192.168.1.12:80/onvif/device_service",
        "http://192.168.1.11:80/onvif/device_service"])]

/-- A camera that answers both bootstrap queries with status 200. -/
def camera (timeBody capabilitiesBody : String) (payload : Option String) :
    Except String Response :=
  if payload = some "GetSystemDateAndTime" then .ok ⟨200, timeBody⟩
  else .ok ⟨200, capabilitiesBody⟩

/-- Nothing answers at any endpoint. -/
def deadNetwork : Env :=
  installation sampleDocuments (fun _ _ => .error "connection refused") noon
    ["announcement: A A"]

/-- Every endpoint answers with status 401. -/
def lockedNetwork : Env :=
  installation sampleDocuments (fun _ _ => .ok ⟨401, ""⟩) noon ["announcement: A A"]

/-- Cameras answer at every address except `192.168.1.11:80`. -/
def liveNetwork : Env :=
  installation sampleDocuments
    (fun endpoint payload =>
      if endpoint = "http://192.168.1.11:80/onvif/device_service" then
        .error "connection refused"
      else camera "time: 2024-03-01 12:00:05" "capabilities: Device, Media" payload)
    noon ["announcement: A B A", "announcement: C B"]

/-- A camera whose clock is set to the year 292277026597, beyond the years whose
seconds the library can count in 64 bits. -/
def farFutureNetwork : Env :=
  installation
    [("time: 292277026597-01-01 00:00:00",
      timeResponse [timeFields "0" "0" "0", dateFields "292277026597" "1" "1"])]
    (fun _ payload => camera "time: 292277026597-01-01 00:00:00" "" payload) noon []

/-- A fresh session for `192.168.1.10:80` holding only the bootstrap endpoint. -/
def bootstrapSession : device := freshSession "192.168.1.10:80"

/-- The error `NewDeviceWithUser` returns for `192.168.1.10:80` when a bootstrap
query is answered with a status other than 200. -/
def rejected : onvifError :=
  ⟨"camera is not available at 192.168.1.10:80 or it does not support ONVIF services", none⟩

/-- A PTZ operation. -/
def ContinuousMove : Method :=
  ⟨"github.com/atagirov/goonvif/PTZ", "ContinuousMove", []⟩

/-- The outcome of a construction on `liveNetwork` as a function of the address. -/
def liveOutcome (a : String) : Except onvifError device :=
  if "http://" ++ a ++ "/onvif/device_service" =
      "http://192.168.1.11:80/onvif/device_service" then
    .error (newOnvifError
      ("camera is not available at " ++ a ++ " or it does not support ONVIF services")
      (some "connection refused"))
  else
    .ok (({ freshSession a with timeDiff := 5000000000 } : device).getSupportedServices
      liveNetwork ⟨200, "capabilities: Device, Media"⟩)

/-! ## Lemmas on splitting -/

theorem splitOn_ne_nil (sep : Char) (l : List Char) : splitOn sep l ≠ [] := by
  induction l with
  | nil => simp [splitOn]
  | cons c cs ih =>
    unfold splitOn
    split
    · simp
    · split
      · simp
      · simp

theorem splitOn_of_not_mem (sep : Char) (l : List Char) (h : sep ∉ l) :
    splitOn sep l = [l] := by
  induction l with
  | nil => rfl
  | cons c cs ih =>
    have hc : c ≠ sep := fun e => h (by simp [e])
    have hcs : sep ∉ cs := fun e => h (by simp [e])
    simp [splitOn, hc, ih hcs]

theorem splitOn_append_sep (sep : Char) (a b : List Char) (h : sep ∉ a) :
    splitOn sep (a ++ sep :: b) = a :: splitOn sep b := by
  induction a with
  | nil => simp [splitOn]
  | cons c cs ih =>
    have hc : c ≠ sep := fun e => h (by simp [e])
    have hcs : sep ∉ cs := fun e => h (by simp [e])
    simp [splitOn, hc, ih hcs]

theorem mem_of_mem_splitOn (sep : Char) (l seg : List Char) (x : Char)
    (hseg : seg ∈ splitOn sep l) (hx : x ∈ seg) : x ∈ l ∧ x ≠ sep := by
  induction l generalizing seg with
  | nil =>
    simp [splitOn] at hseg
    subst hseg
    simp at hx
  | cons c cs ih =>
    unfold splitOn at hseg
    split at hseg
    · rcases List.mem_cons.1 hseg with h | h
      · subst h; simp at hx
      · have := ih seg h hx
        exact ⟨List.mem_cons_of_mem _ this.1, this.2⟩
    · rename_i hne
      split at hseg
      · simp at hseg
        subst hseg
        simp at hx
        subst hx
        exact ⟨by simp, hne⟩
      · rename_i s r heq
        rcases List.mem_cons.1 hseg with h | h
        · subst h
          rcases List.mem_cons.1 hx with h' | h'
          · subst h'; exact ⟨by simp, hne⟩
          · have := ih s (by rw [heq]; simp) h'
            exact ⟨List.mem_cons_of_mem _ this.1, this.2⟩
        · have := ih seg (by rw [heq]; simp [h]) hx
          exact ⟨List.mem_cons_of_mem _ this.1, this.2⟩

theorem length_splitOn (sep : Char) (l : List Char) :
    (splitOn sep l).length = l.count sep + 1 := by
  induction l with
  | nil => rfl
  | cons c cs ih =>
    unfold splitOn
    split
    · rename_i h
      subst h
      simp [ih]
    · rename_i h
      have hc : (c == sep) = false := by simpa using h
      split
      · rename_i heq
        exact absurd heq (splitOn_ne_nil sep cs)
      · rename_i s r heq
        rw [heq] at ih
        simp [List.count_cons, hc] at ih ⊢
        omega

/-- The host extraction on the characters of the text. -/
theorem hostOfXAddrs_data (text : String) :
    hostOfXAddrs text =
      (((splitOn ' ' text.data).head?).bind fun first => (splitOn '/' first)[2]?).map
        String.mk := by
  unfold hostOfXAddrs Split
  cases h : splitOn ' ' text.data with
  | nil => exact absurd h (splitOn_ne_nil _ _)
  | cons a r => simp

theorem Split_headD (s : String) (sep : Char) :
    (Split s sep).headD "" = String.mk ((splitOn sep s.data).headD []) := by
  unfold Split
  cases h : splitOn sep s.data with
  | nil => exact absurd h (splitOn_ne_nil _ _)
  | cons a r => simp

theorem hostOfXAddrs_isSome (text : String) :
    (hostOfXAddrs text).isSome ↔ 2 ≤ ((Split text ' ').headD "").data.count '/' := by
  rw [hostOfXAddrs_data, Split_headD]
  cases h : splitOn ' ' text.data with
  | nil => exact absurd h (splitOn_ne_nil _ _)
  | cons first r =>
    have hlen := length_splitOn '/' first
    simp only [List.head?_cons, Option.some_bind, Option.isSome_map', List.headD_cons]
    constructor
    · intro h
      cases h2 : (splitOn '/' first)[2]? with
      | none => simp [h2] at h
      | some v =>
        have := (List.getElem?_eq_some_iff.1 h2).1
        omega
    · intro h
      have : 2 < (splitOn '/' first).length := by omega
      simp [List.getElem?_eq_getElem this]

theorem splitOn_uri (scheme host path : List Char) (hs : '/' ∉ scheme) (hh : '/' ∉ host) :
    (splitOn '/' (scheme ++ ':' :: '/' :: '/' :: (host ++ '/' :: path)))[2]? = some host := by
  have e : scheme ++ ':' :: '/' :: '/' :: (host ++ '/' :: path) =
      (scheme ++ [':']) ++ '/' :: ([] ++ '/' :: (host ++ '/' :: path)) := by simp
  have hs' : '/' ∉ scheme ++ [':'] := by simp [hs]
  rw [e, splitOn_append_sep _ _ _ hs', splitOn_append_sep _ _ _ (by simp),
    splitOn_append_sep _ _ _ hh]
  simp

theorem hostOfXAddrs_uri (scheme host path rest : String)
    (hs : ' ' ∉ scheme.data ∧ '/' ∉ scheme.data) (hh : ' ' ∉ host.data ∧ '/' ∉ host.data)
    (hp : ' ' ∉ path.data) (hr : rest = "" ∨ ∃ more, rest = " " ++ more) :
    hostOfXAddrs (scheme ++ "://" ++ host ++ "/" ++ path ++ rest) = some host := by
  have huri : ' ' ∉ scheme.data ++ ':' :: '/' :: '/' :: (host.data ++ '/' :: path.data) := by
    simp [hs.1, hh.1, hp]
  have hfirst : (splitOn ' ' (scheme ++ "://" ++ host ++ "/" ++ path ++ rest).data).head? =
      some (scheme.data ++ ':' :: '/' :: '/' :: (host.data ++ '/' :: path.data)) := by
    rcases hr with hr | ⟨more, hr⟩
    · subst hr
      have : (scheme ++ "://" ++ host ++ "/" ++ path ++ "").data =
          scheme.data ++ ':' :: '/' :: '/' :: (host.data ++ '/' :: path.data) := by
        simp [String.data_append]
      rw [this, splitOn_of_not_mem _ _ huri]
      rfl
    · subst hr
      have : (scheme ++ "://" ++ host ++ "/" ++ path ++ (" " ++ more)).data =
          (scheme.data ++ ':' :: '/' :: '/' :: (host.data ++ '/' :: path.data)) ++
            ' ' :: more.data := by
        simp [String.data_append]
      rw [this, splitOn_append_sep _ _ _ huri]
      rfl
  rw [hostOfXAddrs_data, hfirst, Option.some_bind, splitOn_uri _ _ _ hs.2 hh.2]
  rfl

/-! ## The dispatcher -/

theorem buildMethodSOAP_ok (env : Env) (output : String) (doc : Element)
    (hd : env.ReadFromString output = some doc) :
    buildMethodSOAP env output = .ok (SoapMessage.NewEmptySOAP.AddBodyContent doc.Root) := by
  simp [buildMethodSOAP, hd]

/-- The endpoint `CallMethod` resolves for an operation. -/
theorem CallMethod_sends (env : Env) (dev : device) (method : Method) (sent : List Request)
    (output : String) (doc : Element)
    (hm : env.MarshalIndent method = .ok output) (hd : env.ReadFromString output = some doc) :
    ∃ req, dev.CallMethod env method sent =
        (env.SendSoap sent req.endpoint req.message, sent ++ [req]) ∧
      req.endpoint =
        (if category method ∈ ["Device", "Event", "Imaging", "Media", "PTZ"] then
          dev.GetEndpoint (category method) else "") ∧
      req.message.security =
        (if dev.login ≠ "" ∧ dev.password ≠ "" then
          some ⟨dev.login, dev.password, dev.timeDiff⟩ else none) ∧
      req.message.body = doc.Root ∧ req.message.namespaces = Xlmns := by
  have hb := buildMethodSOAP_ok env output doc hd
  have hend : (if category method = "Device" then dev.endpoints.index "Device"
      else if category method = "Event" then dev.endpoints.index "Event"
      else if category method = "Imaging" then dev.endpoints.index "Imaging"
      else if category method = "Media" then dev.endpoints.index "Media"
      else if category method = "PTZ" then dev.endpoints.index "PTZ"
      else "") =
      (if category method ∈ ["Device", "Event", "Imaging", "Media", "PTZ"] then
          dev.GetEndpoint (category method) else "") := by
    simp only [device.GetEndpoint, List.mem_cons, List.mem_singleton, List.not_mem_nil,
      or_false]
    by_cases h1 : category method = "Device"
    · simp [h1]
    by_cases h2 : category method = "Event"
    · simp [h2]
    by_cases h3 : category method = "Imaging"
    · simp [h3]
    by_cases h4 : category method = "Media"
    · simp [h4]
    by_cases h5 : category method = "PTZ"
    · simp [h5]
    simp [h1, h2, h3, h4, h5]
  by_cases hc : dev.login ≠ "" ∧ dev.password ≠ ""
  · refine ⟨⟨(if category method = "Device" then dev.endpoints.index "Device"
      else if category method = "Event" then dev.endpoints.index "Event"
      else if category method = "Imaging" then dev.endpoints.index "Imaging"
      else if category method = "Media" then dev.endpoints.index "Media"
      else if category method = "PTZ" then dev.endpoints.index "PTZ"
      else ""), ((SoapMessage.NewEmptySOAP.AddBodyContent
      doc.Root).AddRootNamespaces Xlmns).AddWSSecurity dev.login dev.password dev.timeDiff⟩,
      ?_, hend, ?_, ?_, ?_⟩
    · simp only [device.CallMethod, if_pos hc, device.callAuthorizedMethod, hm, hb]
      rfl
    · simp [SoapMessage.AddWSSecurity, hc]
    · rfl
    · rfl
  · refine ⟨⟨(if category method = "Device" then dev.endpoints.index "Device"
      else if category method = "Event" then dev.endpoints.index "Event"
      else if category method = "Imaging" then dev.endpoints.index "Imaging"
      else if category method = "Media" then dev.endpoints.index "Media"
      else if category method = "PTZ" then dev.endpoints.index "PTZ"
      else ""), (SoapMessage.NewEmptySOAP.AddBodyContent
      doc.Root).AddRootNamespaces Xlmns⟩, ?_, hend, ?_, ?_, ?_⟩
    · simp only [device.CallMethod, if_neg hc, device.callNonAuthorizedMethod, hm, hb]
      rfl
    · simp only [if_neg hc]
      rfl
    · rfl
    · rfl

/-! ## Session construction -/

/-- The text of the error `NewDeviceWithUser` returns. -/
theorem NewDeviceWithUser_eq (env : Env) (xaddr login password : String) (sent : List Request) :
    NewDeviceWithUser env xaddr login password sent =
      match (freshSession xaddr).CallMethod env GetSystemDateAndTime sent with
      | (.error err, sent) =>
        some (.error (newOnvifError ("camera is not available at " ++ xaddr ++
          " or it does not support ONVIF services") (some err)), sent)
      | (.ok resp, sent) =>
        if resp.StatusCode ≠ 200 then
          some (.error (newOnvifError ("camera is not available at " ++ xaddr ++
            " or it does not support ONVIF services") none), sent)
        else
          match (freshSession xaddr).checkSystemDateAndTime env (env.Now sent) resp with
          | none => none
          | some dev =>
            match (if login ≠ "" then { dev with login := login, password := password }
                else dev).CallMethod env (GetCapabilities "All") sent with
            | (.error err, sent) =>
              some (.error (newOnvifError ("camera is not available at " ++ xaddr ++
                " or it does not support ONVIF services") (some err)), sent)
            | (.ok resp, sent) =>
              if resp.StatusCode ≠ 200 then
                some (.error (newOnvifError ("camera is not available at " ++ xaddr ++
                  " or it does not support ONVIF services") none), sent)
              else
                some (.ok ((if login ≠ "" then
                    { dev with login := login, password := password }
                  else dev).getSupportedServices env resp), sent) := rfl

/-! ## The clock synchroniser -/

theorem Sub_eq (t u : Time) :
    (minInt64 ≤ t.nanos - u.nanos → t.nanos - u.nanos ≤ maxInt64 →
      t.Sub u = t.nanos - u.nanos) ∧
    (maxInt64 < t.nanos - u.nanos → t.Sub u = maxInt64) ∧
    (t.nanos - u.nanos < minInt64 → t.Sub u = minInt64) := by
  simp only [Time.Sub, maxInt64, minInt64]
  refine ⟨?_, ?_, ?_⟩
  · intro h1 h2
    rw [if_neg (by omega), if_neg (by omega)]
  · intro h
    rw [if_pos (by omega)]
  · intro h
    rw [if_neg (by omega), if_pos (by omega)]

theorem checkSystemDateAndTime_valid (env : Env) (currentTime : Time) (dev : device)
    (resp : Response) (Y M D h m s : Int) (hv : ValidTimeResponse env resp Y M D h m s) :
    dev.checkSystemDateAndTime env currentTime resp =
      some { dev with timeDiff := (Date Y M D h m s 0).Sub currentTime } := by
  obtain ⟨doc, utc, date, time, eY, eM, eD, eh, em, es, hdoc, hutc, hdate, htime,
    hY, aY, hM, aM, hD, aD, hh, ah, hm, am, hs, as⟩ := hv
  simp [device.checkSystemDateAndTime, hdoc, hutc, hdate, htime, hY, aY, hM, aM, hD, aD,
    hh, ah, hm, am, hs, as]

theorem norm_of_range (hi lo base : Int) (h0 : 0 ≤ lo) (h1 : lo < base) :
    norm hi lo base = (hi, lo) := by
  unfold norm
  simp only [if_neg (not_lt.mpr h0)]
  rw [if_neg (by omega)]

theorem wrapInt64_of_range (x : Int) (h0 : -9223372036854775808 ≤ x)
    (h1 : x ≤ 9223372036854775807) : wrapInt64 x = x := by
  unfold wrapInt64
  omega

theorem cycles_eq (y : Int) :
    146097 * (y / 400) + 36524 * ((y - 400 * (y / 400)) / 100) +
      1461 * ((y - 400 * (y / 400) - 100 * ((y - 400 * (y / 400)) / 100)) / 4) +
      365 * (y - 400 * (y / 400) - 100 * ((y - 400 * (y / 400)) / 100) -
        4 * ((y - 400 * (y / 400) - 100 * ((y - 400 * (y / 400)) / 100)) / 4)) =
    365 * y + y / 4 - y / 100 + y / 400 := by
  omega

theorem daysBeforeYear_shift (Y : Int) :
    daysBeforeYear Y =
      365 * (Y + 292277022399) + (Y + 292277022399) / 4 - (Y + 292277022399) / 100 +
        (Y + 292277022399) / 400 - 106751990353932 := by
  unfold daysBeforeYear
  omega

theorem monthDays_eq (Y M : Int) (hM0 : 1 ≤ M) (hM1 : M ≤ 12) :
    (daysBefore.getD (M - 1).toNat 0 + (if isLeap Y && decide (M ≥ 3) then 1 else 0) : Int) =
        ((monthLengths Y).take (M - 1).toNat).sum ∧
      0 ≤ ((monthLengths Y).take (M - 1).toNat).sum ∧
      ((monthLengths Y).take (M - 1).toNat).sum ≤ 335 := by
  have hl : isLeap Y = leapYear Y := rfl
  rw [hl]
  interval_cases M <;> cases hL : leapYear Y <;> simp [monthLengths, daysBefore, hL]

theorem Date_eq_calendarSeconds (Y M D h m s : Int) (hc : CalendarFields Y M D h m s) :
    Date Y M D h m s 0 = ⟨calendarSeconds Y M D h m s, 0⟩ := by
  obtain ⟨⟨hY0, hY1⟩, ⟨hM0, hM1⟩, ⟨hD0, hD1⟩, ⟨hh0, hh1⟩, ⟨hm0, hm1⟩, ⟨hs0, hs1⟩⟩ := hc
  have hy : wrapUint64 (Y - absoluteZeroYear) = Y + 292277022399 := by
    unfold wrapUint64 absoluteZeroYear
    omega
  obtain ⟨hsum, hlo, hhi⟩ := monthDays_eq Y M hM0 hM1
  unfold Date
  rw [wrapInt64_of_range (M - 1) (by omega) (by omega),
    norm_of_range Y (M - 1) 12 (by omega) (by omega),
    norm_of_range s 0 1000000000 (by omega) (by omega)]
  simp only []
  rw [norm_of_range m s 60 hs0 (by omega), norm_of_range h m 60 hm0 (by omega),
    norm_of_range D h 24 hh0 (by omega)]
  simp only [hy, sub_add_cancel]
  have hif : ∀ (b : Bool) (c g : Int),
      (if b then c + g + 1 else c + g) = c + (g + if b then 1 else 0) := by
    intro b c g
    cases b <;> simp [add_assoc]
  rw [hif, hsum, cycles_eq]
  unfold calendarSeconds
  rw [daysBeforeYear_shift]
  generalize ((monthLengths Y).take (M - 1).toNat).sum = days at hlo hhi ⊢
  simp only [Time.mk.injEq, and_true]
  unfold wrapInt64 wrapUint64 absoluteToUnix unixToInternal
  omega

/-! ## The endpoint directory -/

theorem foldl_addEndpoint (l : List Found) (dev : device) (k : String) :
    ((l.foldl (fun dev j => dev.addEndpoint ((j.Parent.map Element.Tag).getD "") j.elem.Text)
        dev).endpoints k) =
      ((lastXAddr (l.map fun j => ((j.Parent.map Element.Tag).getD "", j.elem.Text)) k).orElse
        fun _ => dev.endpoints k) := by
  induction l using List.reverseRecOn with
  | nil => simp [lastXAddr]
  | append_singleton init x ih =>
    rw [List.foldl_append]
    simp only [List.foldl_cons, List.foldl_nil, device.addEndpoint, StringMap.set,
      List.map_append, List.map_cons, List.map_nil, lastXAddr, List.reverse_append,
      List.reverse_cons, List.reverse_nil, List.nil_append, List.singleton_append,
      List.find?_cons]
    by_cases hk : k = (Option.map Element.Tag x.Parent).getD ""
    · subst hk
      simp
    · have hk' : ((Option.map Element.Tag x.Parent).getD "" == k) = false := by
        simpa using fun e => hk e.symm
      rw [if_neg hk, hk']
      exact ih

theorem foldl_addEndpoint_fields (l : List Found) (dev : device) :
    let dev' := l.foldl
      (fun dev j => dev.addEndpoint ((j.Parent.map Element.Tag).getD "") j.elem.Text) dev
    dev'.xaddr = dev.xaddr ∧ dev'.login = dev.login ∧ dev'.password = dev.password ∧
      dev'.timeDiff = dev.timeDiff := by
  induction l generalizing dev with
  | nil => simp
  | cons x l ih =>
    have := ih (dev.addEndpoint ((x.Parent.map Element.Tag).getD "") x.elem.Text)
    simpa [device.addEndpoint] using this

/-! ## Discovery -/

theorem Split_of_not_mem (s : String) (sep : Char) (h : sep ∉ s.data) : Split s sep = [s] := by
  simp [Split, splitOn_of_not_mem sep s.data h]

/-- An extracted address contains no space, so `strings.Split(xaddr, " ")[0]` is
the address itself. -/
theorem hostOfXAddrs_first (text xaddr : String) (h : hostOfXAddrs text = some xaddr) :
    (Split xaddr ' ').headD "" = xaddr := by
  rw [hostOfXAddrs_data] at h
  cases hs : splitOn ' ' text.data with
  | nil => exact absurd hs (splitOn_ne_nil _ _)
  | cons first r =>
    rw [hs] at h
    simp only [List.head?_cons, Option.some_bind, Option.map_eq_some'] at h
    obtain ⟨seg, hseg, hx⟩ := h
    subst hx
    have hmem : seg ∈ splitOn '/' first := List.getElem?_mem hseg
    have hfirst : first ∈ splitOn ' ' text.data := by rw [hs]; simp
    have hno : ' ' ∉ seg := by
      intro hin
      have h1 := (mem_of_mem_splitOn '/' first seg ' ' hmem hin).1
      exact (mem_of_mem_splitOn ' ' text.data first ' ' hfirst h1).2 rfl
    rw [Split_of_not_mem _ _ hno]
    rfl

theorem checkSystemDateAndTime_xaddr (env : Env) (now : Time) (dev dev' : device)
    (resp : Response) (h : dev.checkSystemDateAndTime env now resp = some dev') :
    dev'.xaddr = dev.xaddr := by
  unfold device.checkSystemDateAndTime at h
  split at h
  · simp at h; rw [← h]
  · split at h
    · simp at h; rw [← h]
    · simp only [Option.bind_eq_some, Option.some.injEq] at h
      obtain ⟨_, _, _, _, _, _, _, _, _, _, _, _, h⟩ := h
      rw [← h]

theorem getSupportedServices_xaddr (env : Env) (dev : device) (resp : Response) :
    (dev.getSupportedServices env resp).xaddr = dev.xaddr := by
  unfold device.getSupportedServices
  split
  · rfl
  · exact (foldl_addEndpoint_fields _ dev).1

theorem NewDevice_xaddr (env : Env) (xaddr : String) (sent sent' : List Request) (dev : device)
    (h : NewDevice env xaddr sent = some (.ok dev, sent')) : dev.xaddr = xaddr := by
  unfold NewDevice at h
  rw [NewDeviceWithUser_eq] at h
  rcases hc : (freshSession xaddr).CallMethod env GetSystemDateAndTime sent with ⟨r, tr⟩
  rw [hc] at h
  cases r with
  | error err => simp at h
  | ok resp =>
    simp only at h
    by_cases hs : resp.StatusCode ≠ 200
    · rw [if_pos hs] at h; simp at h
    · rw [if_neg hs] at h
      cases hk : (freshSession xaddr).checkSystemDateAndTime env (env.Now tr) resp with
      | none => rw [hk] at h; simp at h
      | some d =>
        have hx := checkSystemDateAndTime_xaddr _ _ _ _ _ hk
        rw [hk] at h
        simp only [ne_eq, not_true_eq_false, if_false] at h
        rcases hc2 : d.CallMethod env (GetCapabilities "All") tr with ⟨r2, tr2⟩
        rw [hc2] at h
        cases r2 with
        | error err => simp at h
        | ok resp2 =>
          simp only at h
          by_cases hs2 : resp2.StatusCode ≠ 200
          · rw [if_pos hs2] at h; simp at h
          · rw [if_neg hs2] at h
            simp only [Option.some.injEq, Prod.mk.injEq, Except.ok.injEq] at h
            rw [← h.1, getSupportedServices_xaddr, hx]
            rfl

theorem findIdx_lt_iff (nvtDevices : List device) (xaddr : String) :
    nvtDevices.findIdx (fun d => d.xaddr == xaddr) < nvtDevices.length ↔
      xaddr ∈ nvtDevices.map device.xaddr := by
  rw [List.findIdx_lt_length]
  simp

/-- One iteration of the inner loop. -/
theorem probeMatchLoop_cons {σ : Type}
    (construct : String → σ → Option (Except onvifError device × σ))
    (x : Found) (rest : List Found) (nvtDevices : List device) (st : σ) (xaddr : String)
    (hx : hostOfXAddrs x.elem.Text = some xaddr) :
    probeMatchLoop construct (x :: rest) nvtDevices st =
      if xaddr ∈ nvtDevices.map device.xaddr then probeMatchLoop construct rest nvtDevices st
      else
        match construct xaddr st with
        | none => none
        | some (.error _, st) => probeMatchLoop construct rest nvtDevices st
        | some (.ok dev, st) => probeMatchLoop construct rest (nvtDevices ++ [dev]) st := by
  rw [probeMatchLoop, hx]
  simp only [findIdx_lt_iff, hostOfXAddrs_first _ _ hx]

theorem JournalOk_append (journal : List (String × Bool)) (b : String) (r : Bool)
    (h : JournalOk journal) (hb : (b, true) ∉ journal) : JournalOk (journal ++ [(b, r)]) := by
  intro pre a post e
  rcases List.eq_nil_or_concat post with hp | ⟨post', y, hp⟩
  · subst hp; simp
  · subst hp
    have e' : journal ++ [(b, r)] = (pre ++ (a, true) :: post') ++ [y] := by
      rw [e]; simp
    have h1 := List.append_inj' e' rfl
    have hy : y = (b, r) := by simpa using h1.2.symm
    subst hy
    have hj : journal = pre ++ (a, true) :: post' := h1.1
    have hpost := h pre a post' hj
    have hab : a ≠ b := by
      intro hab
      subst hab
      exact hb (by rw [hj]; simp)
    simp only [List.concat_eq_append, List.map_append, List.map_cons, List.map_nil,
      List.mem_append, List.mem_singleton, not_or]
    exact ⟨hpost, hab⟩

theorem probeMatchLoop_journal {σ : Type}
    (construct : String → σ → Option (Except onvifError device × σ))
    (hc : ∀ a st d st', construct a st = some (.ok d, st') → d.xaddr = a)
    (xs : List Found) :
    ∀ (nvt : List device) (st : σ) (j : List (String × Bool)) (nvt' : List device) (st' : σ)
      (j' : List (String × Bool)),
      JournalOk j → (∀ a, (a, true) ∈ j → a ∈ nvt.map device.xaddr) →
      probeMatchLoop (journalled construct) xs nvt (st, j) = some (nvt', (st', j')) →
      JournalOk j' ∧ ∀ a, (a, true) ∈ j' → a ∈ nvt'.map device.xaddr := by
  induction xs with
  | nil =>
    intro nvt st j nvt' st' j' hj hs h
    simp only [probeMatchLoop, Option.some.injEq, Prod.mk.injEq] at h
    obtain ⟨h1, h2, h3⟩ := h
    subst h1 h2 h3
    exact ⟨hj, hs⟩
  | cons x rest ih =>
    intro nvt st j nvt' st' j' hj hs h
    cases hx : hostOfXAddrs x.elem.Text with
    | none => simp [probeMatchLoop, hx] at h
    | some xaddr =>
      rw [probeMatchLoop_cons _ _ _ _ _ _ hx] at h
      by_cases hin : xaddr ∈ nvt.map device.xaddr
      · rw [if_pos hin] at h
        exact ih _ _ _ _ _ _ hj hs h
      · rw [if_neg hin] at h
        have hnot : (xaddr, true) ∉ j := fun hm => hin (hs _ hm)
        simp only [journalled] at h
        cases hr : construct xaddr st with
        | none => simp [hr] at h
        | some p =>
          obtain ⟨r, st1⟩ := p
          cases r with
          | error e =>
            simp only [hr] at h
            refine ih _ _ _ _ _ _ (JournalOk_append _ _ _ hj hnot) ?_ h
            intro a ha
            simp only [List.mem_append, List.mem_singleton, Prod.mk.injEq] at ha
            rcases ha with ha | ha
            · exact hs a ha
            · simp at ha
          | ok d =>
            simp only [hr] at h
            refine ih _ _ _ _ _ _ (JournalOk_append _ _ _ hj hnot) ?_ h
            intro a ha
            simp only [List.mem_append, List.mem_singleton, Prod.mk.injEq] at ha
            simp only [List.map_append, List.map_cons, List.map_nil, List.mem_append,
              List.mem_singleton]
            rcases ha with ha | ha
            · exact Or.inl (hs a ha)
            · exact Or.inr (by rw [ha.1, hc _ _ _ _ hr])

theorem announcementLoop_journal {σ : Type} (env : Env)
    (construct : String → σ → Option (Except onvifError device × σ))
    (hc : ∀ a st d st', construct a st = some (.ok d, st') → d.xaddr = a)
    (js : List String) :
    ∀ (nvt : List device) (st : σ) (j : List (String × Bool)) (nvt' : List device) (st' : σ)
      (j' : List (String × Bool)),
      JournalOk j → (∀ a, (a, true) ∈ j → a ∈ nvt.map device.xaddr) →
      announcementLoop env (journalled construct) js nvt (st, j) = some (nvt', (st', j')) →
      JournalOk j' := by
  induction js with
  | nil =>
    intro nvt st j nvt' st' j' hj hs h
    simp only [announcementLoop, Option.some.injEq, Prod.mk.injEq] at h
    obtain ⟨_, _, h3⟩ := h
    subst h3
    exact hj
  | cons x rest ih =>
    intro nvt st j nvt' st' j' hj hs h
    rw [announcementLoop] at h
    cases hd : env.ReadFromString x with
    | none =>
      simp only [hd, Option.some.injEq, Prod.mk.injEq] at h
      obtain ⟨_, _, h3⟩ := h
      subst h3
      exact hj
    | some doc =>
      simp only [hd] at h
      cases hroot : doc.Root with
      | none => simp [hroot] at h
      | some root =>
        simp only [hroot] at h
        cases hl : probeMatchLoop (journalled construct) (FindElements root
            [.tag "Body", .tag "ProbeMatches", .tag "ProbeMatch", .tag "XAddrs"]) nvt (st, j) with
        | none => simp [hl] at h
        | some p =>
          obtain ⟨nvt1, st1, j1⟩ := p
          simp only [hl] at h
          obtain ⟨hj1, hs1⟩ := probeMatchLoop_journal construct hc _ _ _ _ _ _ _ hj hs hl
          exact ih _ _ _ _ _ _ hj1 hs1 h

theorem probeMatchLoop_erase {σ : Type}
    (construct : String → σ → Option (Except onvifError device × σ)) (xs : List Found) :
    ∀ (nvt : List device) (st : σ) (j : List (String × Bool)),
      (probeMatchLoop (journalled construct) xs nvt (st, j)).map (fun r => (r.1, r.2.1)) =
        probeMatchLoop construct xs nvt st := by
  induction xs with
  | nil => intro nvt st j; rfl
  | cons x rest ih =>
    intro nvt st j
    cases hx : hostOfXAddrs x.elem.Text with
    | none => simp [probeMatchLoop, hx]
    | some xaddr =>
      rw [probeMatchLoop_cons _ _ _ _ _ _ hx, probeMatchLoop_cons _ _ _ _ _ _ hx]
      by_cases hin : xaddr ∈ nvt.map device.xaddr
      · rw [if_pos hin, if_pos hin]
        exact ih _ _ _
      · rw [if_neg hin, if_neg hin]
        simp only [journalled]
        cases hr : construct xaddr st with
        | none => rfl
        | some p =>
          obtain ⟨r, st1⟩ := p
          cases r with
          | error e => exact ih _ _ _
          | ok d => exact ih _ _ _

theorem announcementLoop_erase {σ : Type} (env : Env)
    (construct : String → σ → Option (Except onvifError device × σ)) (js : List String) :
    ∀ (nvt : List device) (st : σ) (j : List (String × Bool)),
      (announcementLoop env (journalled construct) js nvt (st, j)).map
          (fun r => (r.1, r.2.1)) =
        announcementLoop env construct js nvt st := by
  induction js with
  | nil => intro nvt st j; rfl
  | cons x rest ih =>
    intro nvt st j
    rw [announcementLoop, announcementLoop]
    cases hd : env.ReadFromString x with
    | none => rfl
    | some doc =>
      simp only
      cases hroot : doc.Root with
      | none => rfl
      | some root =>
        have he := probeMatchLoop_erase construct (FindElements root
            [.tag "Body", .tag "ProbeMatches", .tag "ProbeMatch", .tag "XAddrs"]) nvt st j
        simp only
        cases hl : probeMatchLoop (journalled construct) (FindElements root
            [.tag "Body", .tag "ProbeMatches", .tag "ProbeMatch", .tag "XAddrs"]) nvt (st, j) with
        | none =>
          rw [hl] at he
          simp only [Option.map_none'] at he
          rw [← he]
          rfl
        | some p =>
          obtain ⟨nvt1, st1, j1⟩ := p
          rw [hl] at he
          simp only [Option.map_some'] at he
          rw [← he]
          exact ih _ _ _

theorem probeMatchLoop_fixed {σ : Type}
    (construct : String → σ → Option (Except onvifError device × σ))
    (f : String → Except onvifError device)
    (hf : ∀ a st, ∃ st', construct a st = some (f a, st')) (xs : List Found)
    (hx : ∀ x ∈ xs, (hostOfXAddrs x.elem.Text).isSome) :
    ∀ (nvt : List device) (st : σ), ∃ st',
      probeMatchLoop construct xs nvt st =
        some ((xs.filterMap fun x => hostOfXAddrs x.elem.Text).foldl (accept f) nvt, st') := by
  induction xs with
  | nil => intro nvt st; exact ⟨st, rfl⟩
  | cons x rest ih =>
    intro nvt st
    have ih := ih (fun y hy => hx y (List.mem_cons_of_mem _ hy))
    cases hh : hostOfXAddrs x.elem.Text with
    | none =>
      have := hx x (by simp)
      rw [hh] at this
      simp at this
    | some xaddr =>
      rw [probeMatchLoop_cons _ _ _ _ _ _ hh]
      simp only [List.filterMap_cons, hh, List.foldl_cons, accept]
      by_cases hin : xaddr ∈ nvt.map device.xaddr
      · rw [if_pos hin, if_pos hin]
        exact ih _ _
      · rw [if_neg hin, if_neg hin]
        obtain ⟨st1, h1⟩ := hf xaddr st
        rw [h1]
        cases hfa : f xaddr with
        | error e => exact ih _ _
        | ok d => exact ih _ _

theorem announcementLoop_fixed {σ : Type} (env : Env)
    (construct : String → σ → Option (Except onvifError device × σ))
    (f : String → Except onvifError device)
    (hf : ∀ a st, ∃ st', construct a st = some (f a, st')) (js : List String)
    (hw : ∀ j ∈ js, ∃ doc root,
      env.ReadFromString j = some doc ∧ doc.Root = some root ∧
      ∀ x ∈ FindElements root
          [.tag "Body", .tag "ProbeMatches", .tag "ProbeMatch", .tag "XAddrs"],
        (hostOfXAddrs x.elem.Text).isSome) :
    ∀ (nvt : List device) (st : σ), ∃ st',
      announcementLoop env construct js nvt st =
        some ((js.flatMap fun j =>
            match (env.ReadFromString j).bind Element.Root with
            | none => []
            | some root =>
              (FindElements root
                [.tag "Body", .tag "ProbeMatches", .tag "ProbeMatch", .tag "XAddrs"]).filterMap
                fun x => hostOfXAddrs x.elem.Text).foldl (accept f) nvt, st') := by
  induction js with
  | nil => intro nvt st; exact ⟨st, rfl⟩
  | cons j rest ih =>
    intro nvt st
    have ih := ih (fun y hy => hw y (List.mem_cons_of_mem _ hy))
    obtain ⟨doc, root, hd, hroot, hx⟩ := hw j (by simp)
    obtain ⟨st1, h1⟩ := probeMatchLoop_fixed construct f hf _ hx nvt st
    rw [announcementLoop]
    simp only [hd, hroot, h1, List.flatMap_cons, Option.some_bind, List.foldl_append]
    exact ih _ _

theorem filterMap_filter_of_none {α β : Type} (ok : α → Option β) (q : α → Bool) (l : List α)
    (h : ∀ b ∈ l, q b = false → ok b = none) :
    (l.filter q).filterMap ok = l.filterMap ok := by
  induction l with
  | nil => rfl
  | cons b l ih =>
    have ih := ih (fun c hc => h c (List.mem_cons_of_mem _ hc))
    cases hq : q b with
    | true => simp [List.filter_cons, hq, List.filterMap_cons, ih]
    | false =>
      have := h b (by simp) hq
      simp [List.filter_cons, hq, List.filterMap_cons, ih, this]

theorem filter_swap {α : Type} (p q : α → Bool) (l : List α) :
    (l.filter q).filter p = (l.filter p).filter q := by
  rw [List.filter_filter, List.filter_filter]
  apply List.filter_congr
  intro b _
  exact Bool.and_comm _ _

theorem foldl_accept (f : String → Except onvifError device)
    (hx : ∀ a d, f a = .ok d → d.xaddr = a) (l : List String) :
    ∀ nvt : List device,
      l.foldl (accept f) nvt =
        nvt ++ ((firstOccurrences l).filter fun a => decide (a ∉ nvt.map device.xaddr)).filterMap
          fun a => (f a).toOption := by
  induction l with
  | nil => intro nvt; simp [firstOccurrences]
  | cons a l ih =>
    intro nvt
    rw [List.foldl_cons, ih, firstOccurrences]
    by_cases hin : a ∈ nvt.map device.xaddr
    · have hacc : accept f nvt a = nvt := by simp only [accept, if_pos hin]
      have key : (a :: (firstOccurrences l).filter fun b => decide (b ≠ a)).filter
            (fun b => decide (b ∉ nvt.map device.xaddr)) =
          (firstOccurrences l).filter fun b => decide (b ∉ nvt.map device.xaddr) := by
        rw [List.filter_cons, if_neg (by simpa using hin), List.filter_filter]
        apply List.filter_congr
        intro b _
        by_cases hb : b ∈ nvt.map device.xaddr
        · simp [hb]
        · have : b ≠ a := fun e => hb (e ▸ hin)
          simp [hb, this]
      rw [hacc, key]
    · cases hfa : f a with
      | error e =>
        have hacc : accept f nvt a = nvt := by simp only [accept, if_neg hin, hfa]
        have key : ((a :: (firstOccurrences l).filter fun b => decide (b ≠ a)).filter
              (fun b => decide (b ∉ nvt.map device.xaddr))).filterMap
              (fun a => (f a).toOption) =
            ((firstOccurrences l).filter fun b => decide (b ∉ nvt.map device.xaddr)).filterMap
              (fun a => (f a).toOption) := by
          rw [List.filter_cons, if_pos (by simpa using hin), List.filterMap_cons]
          simp only [hfa, Except.toOption]
          rw [filter_swap]
          apply filterMap_filter_of_none
          intro b _ hb
          have : b = a := by simpa using hb
          subst this
          simp [hfa]
        rw [hacc, key]
      | ok d =>
        have hacc : accept f nvt a = nvt ++ [d] := by simp only [accept, if_neg hin, hfa]
        have hd := hx a d hfa
        have key : (a :: (firstOccurrences l).filter fun b => decide (b ≠ a)).filter
              (fun b => decide (b ∉ nvt.map device.xaddr)) =
            a :: (firstOccurrences l).filter
              fun b => decide (b ∉ (nvt ++ [d]).map device.xaddr) := by
          rw [List.filter_cons, if_pos (by simpa using hin), List.filter_filter]
          congr 1
          apply List.filter_congr
          intro b _
          simp only [List.map_append, List.map_cons, List.map_nil, List.mem_append,
            List.mem_singleton, hd, not_or, Bool.decide_and]
        rw [hacc, key, List.filterMap_cons]
        simp only [hfa, Except.toOption, List.append_assoc, List.singleton_append]

theorem firstOccurrences_nodup (l : List String) : (firstOccurrences l).Nodup := by
  induction l with
  | nil => simp [firstOccurrences]
  | cons a l ih =>
    rw [firstOccurrences, List.nodup_cons]
    exact ⟨by simp [List.mem_filter], ih.filter _⟩

theorem mem_firstOccurrences (l : List String) (a : String) :
    a ∈ firstOccurrences l ↔ a ∈ l := by
  induction l with
  | nil => simp [firstOccurrences]
  | cons b l ih =>
    rw [firstOccurrences]
    simp only [List.mem_cons, List.mem_filter, ih, decide_eq_true_eq]
    by_cases h : a = b <;> simp [h]

theorem probeMatchLoop_attempts {σ : Type}
    (construct : String → σ → Option (Except onvifError device × σ))
    (hc : ∀ a st d st', construct a st = some (.ok d, st') → d.xaddr = a)
    (xs : List Found) :
    ∀ (nvt : List device) (st : σ) (j0 : List (String × Bool)) (nvt' : List device) (st' : σ)
      (j1 : List (String × Bool)),
      probeMatchLoop (journalled construct) xs nvt (st, j0) = some (nvt', (st', j1)) →
      ∃ jn, j1 = j0 ++ jn ∧ ∀ rest tail, Attempts (nvt'.map device.xaddr) rest tail →
        Attempts (nvt.map device.xaddr)
          ((xs.filterMap fun x => hostOfXAddrs x.elem.Text) ++ rest) (jn ++ tail) := by
  induction xs with
  | nil =>
    intro nvt st j0 nvt' st' j1 h
    simp only [probeMatchLoop, Option.some.injEq, Prod.mk.injEq] at h
    obtain ⟨h1, _, h3⟩ := h
    subst h1 h3
    exact ⟨[], by simp, fun rest tail ht => by simpa using ht⟩
  | cons x xs ih =>
    intro nvt st j0 nvt' st' j1 h
    cases hx : hostOfXAddrs x.elem.Text with
    | none => simp [probeMatchLoop, hx] at h
    | some xaddr =>
      rw [probeMatchLoop_cons _ _ _ _ _ _ hx] at h
      simp only [List.filterMap_cons, hx, List.cons_append]
      by_cases hin : xaddr ∈ nvt.map device.xaddr
      · rw [if_pos hin] at h
        obtain ⟨jn, hj, hA⟩ := ih _ _ _ _ _ _ h
        refine ⟨jn, hj, fun rest tail ht => ?_⟩
        rw [Attempts, if_pos hin]
        exact hA rest tail ht
      · rw [if_neg hin] at h
        simp only [journalled] at h
        cases hr : construct xaddr st with
        | none => simp [hr] at h
        | some p =>
          obtain ⟨r, st1⟩ := p
          cases r with
          | error e =>
            simp only [hr] at h
            obtain ⟨jn, hj, hA⟩ := ih _ _ _ _ _ _ h
            refine ⟨(xaddr, false) :: jn, by simp [hj], fun rest tail ht => ?_⟩
            rw [Attempts, if_neg hin]
            exact ⟨false, jn ++ tail, rfl, by simpa using hA rest tail ht⟩
          | ok d =>
            simp only [hr] at h
            obtain ⟨jn, hj, hA⟩ := ih _ _ _ _ _ _ h
            refine ⟨(xaddr, true) :: jn, by simp [hj], fun rest tail ht => ?_⟩
            rw [Attempts, if_neg hin]
            refine ⟨true, jn ++ tail, rfl, ?_⟩
            have := hA rest tail ht
            simpa [hc _ _ _ _ hr] using this

theorem announcementLoop_attempts {σ : Type} (env : Env)
    (construct : String → σ → Option (Except onvifError device × σ))
    (hc : ∀ a st d st', construct a st = some (.ok d, st') → d.xaddr = a)
    (js : List String)
    (hw : ∀ j ∈ js, ∃ doc root,
      env.ReadFromString j = some doc ∧ doc.Root = some root ∧
      ∀ x ∈ FindElements root
          [.tag "Body", .tag "ProbeMatches", .tag "ProbeMatch", .tag "XAddrs"],
        (hostOfXAddrs x.elem.Text).isSome) :
    ∀ (nvt : List device) (st : σ) (j0 : List (String × Bool)) (nvt' : List device) (st' : σ)
      (j1 : List (String × Bool)),
      announcementLoop env (journalled construct) js nvt (st, j0) = some (nvt', (st', j1)) →
      ∃ jn, j1 = j0 ++ jn ∧
        Attempts (nvt.map device.xaddr)
          (js.flatMap fun j =>
            match (env.ReadFromString j).bind Element.Root with
            | none => []
            | some root =>
              (FindElements root
                [.tag "Body", .tag "ProbeMatches", .tag "ProbeMatch", .tag "XAddrs"]).filterMap
                fun x => hostOfXAddrs x.elem.Text) jn := by
  induction js with
  | nil =>
    intro nvt st j0 nvt' st' j1 h
    simp only [announcementLoop, Option.some.injEq, Prod.mk.injEq] at h
    obtain ⟨_, _, h3⟩ := h
    subst h3
    exact ⟨[], by simp, by simp [Attempts]⟩
  | cons j rest ih =>
    intro nvt st j0 nvt' st' j1 h
    have ih := ih (fun y hy => hw y (List.mem_cons_of_mem _ hy))
    obtain ⟨doc, root, hd, hroot, _⟩ := hw j (by simp)
    rw [announcementLoop] at h
    simp only [hd, hroot] at h
    cases hl : probeMatchLoop (journalled construct) (FindElements root
        [.tag "Body", .tag "ProbeMatches", .tag "ProbeMatch", .tag "XAddrs"]) nvt (st, j0) with
    | none => simp [hl] at h
    | some p =>
      obtain ⟨nvt1, st1, jm⟩ := p
      simp only [hl] at h
      obtain ⟨ja, hja, hA⟩ := probeMatchLoop_attempts construct hc _ _ _ _ _ _ _ hl
      obtain ⟨jb, hjb, hB⟩ := ih _ _ _ _ _ _ h
      refine ⟨ja ++ jb, by rw [hjb, hja, List.append_assoc], ?_⟩
      simp only [List.flatMap_cons, hd, hroot, Option.some_bind]
      exact hA _ _ hB

theorem Attempts_mem (cands : List String) :
    ∀ (constructed : List String) (journal : List (String × Bool)),
      Attempts constructed cands journal →
      ∀ a ∈ cands, a ∉ constructed → a ∈ journal.map Prod.fst := by
  induction cands with
  | nil => intro _ _ _ a ha; simp at ha
  | cons b rest ih =>
    intro constructed journal hA a ha hna
    rw [Attempts] at hA
    by_cases hb : b ∈ constructed
    · rw [if_pos hb] at hA
      have hab : a ≠ b := fun e => hna (e ▸ hb)
      rcases List.mem_cons.1 ha with h | h
      · exact absurd h hab
      · exact ih _ _ hA a h hna
    · rw [if_neg hb] at hA
      obtain ⟨r, tail, hj, hT⟩ := hA
      subst hj
      by_cases hab : a = b
      · simp [hab]
      · rcases List.mem_cons.1 ha with h | h
        · exact absurd h hab
        · have hna' : a ∉ (if r = true then constructed ++ [b] else constructed) := by
            split <;> simp [hna, hab]
          simp only [List.map_cons, List.mem_cons]
          exact Or.inr (ih _ _ hT a h hna')

theorem Attempts_count (cands : List String) (a : String) :
    ∀ (constructed : List String) (journal : List (String × Bool)),
      Attempts constructed cands journal → a ∉ constructed →
      (∀ r, (a, r) ∈ journal → r = false) →
      (journal.map Prod.fst).count a = cands.count a := by
  induction cands with
  | nil =>
    intro _ journal hA _ _
    rw [Attempts] at hA
    simp [hA]
  | cons b rest ih =>
    intro constructed journal hA hna hf
    rw [Attempts] at hA
    by_cases hb : b ∈ constructed
    · rw [if_pos hb] at hA
      have hab : b ≠ a := fun e => hna (e ▸ hb)
      rw [List.count_cons_of_ne (Ne.symm hab)]
      exact ih _ _ hA hna hf
    · rw [if_neg hb] at hA
      obtain ⟨r, tail, hj, hT⟩ := hA
      subst hj
      have hf' : ∀ r', (a, r') ∈ tail → r' = false :=
        fun r' hr' => hf r' (List.mem_cons_of_mem _ hr')
      by_cases hab : b = a
      · subst hab
        have hr : r = false := hf r (by simp)
        subst hr
        simp only [Bool.false_eq_true, if_false] at hT
        simp only [List.map_cons, List.count_cons_self]
        rw [ih _ _ hT hna hf']
      · have hna' : a ∉ (if r = true then constructed ++ [b] else constructed) := by
          split <;> simp [hna, Ne.symm hab]
        simp only [List.map_cons]
        rw [List.count_cons_of_ne (Ne.symm hab), List.count_cons_of_ne (Ne.symm hab)]
        exact ih _ _ hT hna' hf'

/-! ## The sample network -/

theorem freshSession_endpoint (a : String) (td : Int) (login password : String) :
    (if category GetSystemDateAndTime ∈ ["Device", "Event", "Imaging", "Media", "PTZ"] then
      ({ freshSession a with timeDiff := td, login := login, password := password } :
        device).GetEndpoint (category GetSystemDateAndTime) else "") =
      "http://" ++ a ++ "/onvif/device_service" := by
  have hc : category GetSystemDateAndTime = "Device" := by decide
  rw [hc]
  simp [freshSession, device.addEndpoint, device.GetEndpoint, StringMap.index, StringMap.set]

/-- On `liveNetwork` the outcome of a construction is `liveOutcome` of the
address, whatever was sent before. -/
theorem liveNetwork_NewDevice (a : String) (st : List Request) :
    ∃ st', NewDevice liveNetwork a st = some (liveOutcome a, st') := by
  unfold NewDevice
  rw [NewDeviceWithUser_eq]
  obtain ⟨req, h1, h2, _, h4, _⟩ := CallMethod_sends liveNetwork (freshSession a)
    GetSystemDateAndTime st "<GetSystemDateAndTime/>"
    (document (leaf "GetSystemDateAndTime" "")) rfl rfl
  have he : req.endpoint = "http://" ++ a ++ "/onvif/device_service" := by
    rw [h2]; exact freshSession_endpoint a 0 "" ""
  have hsend : liveNetwork.SendSoap st req.endpoint req.message =
      if "http://" ++ a ++ "/onvif/device_service" =
          "http://192.168.1.11:80/onvif/device_service" then .error "connection refused"
      else .ok ⟨200, "time: 2024-03-01 12:00:05"⟩ := by
    show (if req.endpoint = "http://192.168.1.11:80/onvif/device_service" then _ else
      camera _ _ (req.message.body.map Element.Tag)) = _
    rw [he, h4]
    rfl
  rw [h1, hsend]
  by_cases hb : "http://" ++ a ++ "/onvif/device_service" =
      "http://192.168.1.11:80/onvif/device_service"
  · rw [if_pos hb]
    refine ⟨st ++ [req], ?_⟩
    simp only [liveOutcome, if_pos hb]
  · rw [if_neg hb]
    have hv : ValidTimeResponse liveNetwork ⟨200, "time: 2024-03-01 12:00:05"⟩ 2024 3 1 12 0 5 :=
      ⟨_, _, _, _, _, _, _, _, _, _, rfl, rfl, rfl, rfl, rfl, by decide, rfl, by decide, rfl,
        by decide, rfl, by decide, rfl, by decide, rfl, by decide⟩
    have hk := checkSystemDateAndTime_valid liveNetwork (liveNetwork.Now (st ++ [req]))
      (freshSession a) _ 2024 3 1 12 0 5 hv
    have hsub : (Date 2024 3 1 12 0 5 0).Sub (liveNetwork.Now (st ++ [req])) = 5000000000 := by
      show (Date 2024 3 1 12 0 5 0).Sub noon = 5000000000
      decide
    rw [hsub] at hk
    simp only [ne_eq, not_true_eq_false, if_false, hk]
    obtain ⟨req2, g1, g2, _, g4, _⟩ := CallMethod_sends liveNetwork
      ({ freshSession a with timeDiff := 5000000000 } : device)
      (GetCapabilities "All") (st ++ [req]) "<GetCapabilities/>"
      (document (leaf "GetCapabilities" "")) rfl rfl
    have he2 : req2.endpoint = "http://" ++ a ++ "/onvif/device_service" := by
      rw [g2]; exact freshSession_endpoint a 5000000000 "" ""
    have hsend2 : liveNetwork.SendSoap (st ++ [req]) req2.endpoint req2.message =
        .ok ⟨200, "capabilities: Device, Media"⟩ := by
      show (if req2.endpoint = "http://192.168.1.11:80/onvif/device_service" then _ else
        camera _ _ (req2.message.body.map Element.Tag)) = _
      rw [he2, g4, if_neg hb]
      rfl
    rw [g1, hsend2]
    refine ⟨(st ++ [req]) ++ [req2], ?_⟩
    simp only [liveOutcome, if_neg hb]
    rfl

theorem liveNetwork_wellFormed : WellFormedAnnouncements liveNetwork "eth0" := by
  intro j hj
  have hj' : j = "announcement: A B A" ∨ j = "announcement: C B" := by
    simpa [probe, liveNetwork, installation] using hj
  rcases hj' with h | h
  · subst h
    refine ⟨_, _, rfl, rfl, ?_⟩
    decide
  · subst h
    refine ⟨_, _, rfl, rfl, ?_⟩
    decide

/-! ## The dispatcher: security header and routing -/

/-- C1, counterexample.  `Authenticate("admin", "")` stores a non-empty username
with an empty password; the request `CallMethod` then dispatches carries no
security header. -/
theorem CallMethod_empty_password_no_header :
    (bootstrapSession.Authenticate "admin" "").login = "admin" ∧
    (((bootstrapSession.Authenticate "admin" "").CallMethod liveNetwork GetSystemDateAndTime
      []).2.map fun req => req.message.security) = [none] := by
  decide

/-- C1, amended.  Whenever the operation can be marshalled and wrapped,
`CallMethod` hands exactly one request to the transport and returns the
transport's answer; the request carries a WS-Security header built from the
session's login, password and `timeDiff` exactly when both the login and the
password are non-empty, and no security header otherwise. -/
theorem CallMethod_security_header (env : Env) (dev : device) (method : Method)
    (sent : List Request) (output : String) (doc : Element)
    (hm : env.MarshalIndent method = .ok output) (hd : env.ReadFromString output = some doc) :
    ∃ req, dev.CallMethod env method sent =
        (env.SendSoap sent req.endpoint req.message, sent ++ [req]) ∧
      req.message.security =
        (if dev.login ≠ "" ∧ dev.password ≠ "" then
          some ⟨dev.login, dev.password, dev.timeDiff⟩ else none) := by
  obtain ⟨req, h1, _, h3, _⟩ := CallMethod_sends env dev method sent output doc hm hd
  exact ⟨req, h1, h3⟩

/-- Witness of C1: the time query of a session authenticated as `admin` with a
non-empty password. -/
theorem CallMethod_security_header_witness :
    liveNetwork.MarshalIndent GetSystemDateAndTime = .ok "<GetSystemDateAndTime/>" ∧
    liveNetwork.ReadFromString "<GetSystemDateAndTime/>" =
      some (document (leaf "GetSystemDateAndTime" "")) ∧
    ∃ req, (bootstrapSession.Authenticate "admin" "Supervisor").CallMethod liveNetwork
        GetSystemDateAndTime [] =
        (liveNetwork.SendSoap [] req.endpoint req.message, [] ++ [req]) ∧
      req.message.security =
        (if (bootstrapSession.Authenticate "admin" "Supervisor").login ≠ "" ∧
            (bootstrapSession.Authenticate "admin" "Supervisor").password ≠ "" then
          some ⟨(bootstrapSession.Authenticate "admin" "Supervisor").login,
            (bootstrapSession.Authenticate "admin" "Supervisor").password,
            (bootstrapSession.Authenticate "admin" "Supervisor").timeDiff⟩ else none) :=
  ⟨rfl, rfl, CallMethod_security_header liveNetwork
    (bootstrapSession.Authenticate "admin" "Supervisor") GetSystemDateAndTime []
    "<GetSystemDateAndTime/>" (document (leaf "GetSystemDateAndTime" "")) rfl rfl⟩

/-- C5.  The URL `CallMethod` sends to is determined by the category of the
operation and the endpoint map: it is `GetEndpoint` of the category when the
category is one of Device, Event, Imaging, Media, PTZ, and the empty string when
the category is outside that set or has no registered entry. -/
theorem CallMethod_endpoint (env : Env) (dev : device) (method : Method)
    (sent : List Request) (output : String) (doc : Element)
    (hm : env.MarshalIndent method = .ok output) (hd : env.ReadFromString output = some doc) :
    ∃ req, dev.CallMethod env method sent =
        (env.SendSoap sent req.endpoint req.message, sent ++ [req]) ∧
      req.endpoint =
        (if category method ∈ ["Device", "Event", "Imaging", "Media", "PTZ"] then
          dev.GetEndpoint (category method) else "") ∧
      (dev.GetServices (category method) = none → req.endpoint = "") := by
  obtain ⟨req, h1, h2, _⟩ := CallMethod_sends env dev method sent output doc hm hd
  refine ⟨req, h1, h2, ?_⟩
  intro hnone
  rw [h2]
  have : dev.GetEndpoint (category method) = "" := by
    simp only [device.GetServices] at hnone
    simp [device.GetEndpoint, StringMap.index, hnone]
  rw [this, ite_self]

/-- Witness of C5: with only `Device` and `Media` registered, `GetEndpoint("PTZ")` is
empty and a PTZ operation is sent to the empty URL. -/
theorem CallMethod_endpoint_witness :
    liveNetwork.MarshalIndent ContinuousMove = .ok "<ContinuousMove/>" ∧
    liveNetwork.ReadFromString "<ContinuousMove/>" =
      some (document (leaf "ContinuousMove" "")) ∧
    category ContinuousMove = "PTZ" ∧
    (bootstrapSession.addEndpoint "Media" "http://192.168.1.10:80/onvif/media_service").GetEndpoint
      "PTZ" = "" ∧
    ∃ req, (bootstrapSession.addEndpoint "Media"
          "http://192.168.1.10:80/onvif/media_service").CallMethod liveNetwork ContinuousMove [] =
        (liveNetwork.SendSoap [] req.endpoint req.message, [] ++ [req]) ∧
      req.endpoint =
        (if category ContinuousMove ∈ ["Device", "Event", "Imaging", "Media", "PTZ"] then
          (bootstrapSession.addEndpoint "Media"
            "http://192.168.1.10:80/onvif/media_service").GetEndpoint (category ContinuousMove)
          else "") ∧
      ((bootstrapSession.addEndpoint "Media"
          "http://192.168.1.10:80/onvif/media_service").GetServices (category ContinuousMove) =
          none → req.endpoint = "") :=
  ⟨rfl, rfl, by decide, by decide, CallMethod_endpoint liveNetwork
    (bootstrapSession.addEndpoint "Media" "http://192.168.1.10:80/onvif/media_service")
    ContinuousMove [] "<ContinuousMove/>" (document (leaf "ContinuousMove" "")) rfl rfl⟩

/-! ## Session construction -/

/-- C6.  If the time query returns an error or a status other than 200,
`NewDeviceWithUser` returns no session and an error, and the requests sent are
those of the time query alone: the capability query is not dispatched, whatever
the device would have answered to it. -/
theorem NewDeviceWithUser_time_query_failure (env : Env) (xaddr login password : String)
    (sent : List Request)
    (h : (∃ err, ((freshSession xaddr).CallMethod env GetSystemDateAndTime sent).1 =
            .error err) ∨
         (∃ resp, ((freshSession xaddr).CallMethod env GetSystemDateAndTime sent).1 =
            .ok resp ∧ resp.StatusCode ≠ 200)) :
    ∃ e, NewDeviceWithUser env xaddr login password sent =
      some (.error e, ((freshSession xaddr).CallMethod env GetSystemDateAndTime sent).2) := by
  rw [NewDeviceWithUser_eq]
  rcases hc : (freshSession xaddr).CallMethod env GetSystemDateAndTime sent with ⟨r, tr⟩
  rw [hc] at h
  rcases h with ⟨err, h⟩ | ⟨resp, h, hs⟩
  · simp only at h
    subst h
    exact ⟨_, rfl⟩
  · simp only at h
    subst h
    refine ⟨newOnvifError ("camera is not available at " ++ xaddr ++
      " or it does not support ONVIF services") none, ?_⟩
    simp only [if_pos hs]

/-- Witness of C6: nothing answers the time query. -/
theorem NewDeviceWithUser_time_query_failure_witness :
    ((∃ err, ((freshSession "192.168.1.10:80").CallMethod deadNetwork GetSystemDateAndTime
            []).1 = .error err) ∨
      (∃ resp, ((freshSession "192.168.1.10:80").CallMethod deadNetwork GetSystemDateAndTime
            []).1 = .ok resp ∧ resp.StatusCode ≠ 200)) ∧
    ∃ e, NewDeviceWithUser deadNetwork "192.168.1.10:80" "admin" "Supervisor" [] =
      some (.error e,
        ((freshSession "192.168.1.10:80").CallMethod deadNetwork GetSystemDateAndTime []).2) :=
  ⟨Or.inl ⟨"connection refused", rfl⟩,
    NewDeviceWithUser_time_query_failure deadNetwork "192.168.1.10:80" "admin" "Supervisor" []
      (Or.inl ⟨"connection refused", rfl⟩)⟩

/-- C10.  An error returned by `NewDeviceWithUser` comes from one of its two
calls of `CallMethod`, the last thing it did.  `Inner` is the error that call
returned and `Error()` is `Message + ":" + Inner.Error()`; when the call
returned a response with a status other than 200 and no error, `Inner` is nil
and `Error()` has no result. -/
theorem NewDeviceWithUser_error (env : Env) (xaddr login password : String)
    (sent sent' : List Request) (e : onvifError)
    (h : NewDeviceWithUser env xaddr login password sent = some (.error e, sent')) :
    ∃ (dev : device) (method : Method) (sent0 : List Request) (r : Except String Response),
      (method = GetSystemDateAndTime ∨ method = GetCapabilities "All") ∧
      dev.CallMethod env method sent0 = (r, sent') ∧
      e.Error = e.Inner.map (fun inner => e.Message ++ ":" ++ inner) ∧
      ((∃ err, r = .error err ∧ e.Inner = some err) ∨
       (∃ resp, r = .ok resp ∧ resp.StatusCode ≠ 200 ∧ e.Inner = none ∧ e.Error = none)) := by
  have hErr : e.Error = e.Inner.map (fun inner => e.Message ++ ":" ++ inner) := by
    cases hi : e.Inner <;> simp [onvifError.Error, hi]
  rw [NewDeviceWithUser_eq] at h
  rcases hc : (freshSession xaddr).CallMethod env GetSystemDateAndTime sent with ⟨r, tr⟩
  rw [hc] at h
  cases r with
  | error err =>
    simp only [Option.some.injEq, Prod.mk.injEq, Except.error.injEq] at h
    obtain ⟨he, ht⟩ := h
    subst he ht
    exact ⟨_, _, _, _, Or.inl rfl, hc, hErr, Or.inl ⟨err, rfl, rfl⟩⟩
  | ok resp =>
    simp only at h
    by_cases hs : resp.StatusCode ≠ 200
    · rw [if_pos hs] at h
      simp only [Option.some.injEq, Prod.mk.injEq, Except.error.injEq] at h
      obtain ⟨he, ht⟩ := h
      subst he ht
      exact ⟨_, _, _, _, Or.inl rfl, hc, hErr, Or.inr ⟨resp, rfl, hs, rfl, rfl⟩⟩
    · rw [if_neg hs] at h
      cases hk : (freshSession xaddr).checkSystemDateAndTime env (env.Now tr) resp with
      | none => rw [hk] at h; simp at h
      | some dev =>
        rw [hk] at h
        simp only at h
        rcases hc2 : (if login ≠ "" then { dev with login := login, password := password }
                else dev).CallMethod env (GetCapabilities "All") tr with ⟨r2, tr2⟩
        rw [hc2] at h
        cases r2 with
        | error err =>
          simp only [Option.some.injEq, Prod.mk.injEq, Except.error.injEq] at h
          obtain ⟨he, ht⟩ := h
          subst he ht
          exact ⟨_, _, _, _, Or.inr rfl, hc2, hErr, Or.inl ⟨err, rfl, rfl⟩⟩
        | ok resp2 =>
          simp only at h
          by_cases hs2 : resp2.StatusCode ≠ 200
          · rw [if_pos hs2] at h
            simp only [Option.some.injEq, Prod.mk.injEq, Except.error.injEq] at h
            obtain ⟨he, ht⟩ := h
            subst he ht
            exact ⟨_, _, _, _, Or.inr rfl, hc2, hErr, Or.inr ⟨resp2, rfl, hs2, rfl, rfl⟩⟩
          · rw [if_neg hs2] at h
            simp at h

/-- Witness of C10: the time query is answered with status 401 and no error. -/
theorem NewDeviceWithUser_error_witness :
    NewDeviceWithUser lockedNetwork "192.168.1.10:80" "" "" [] =
      some (.error rejected,
        ((freshSession "192.168.1.10:80").CallMethod lockedNetwork GetSystemDateAndTime []).2) ∧
    ∃ (dev : device) (method : Method) (sent0 : List Request) (r : Except String Response),
      (method = GetSystemDateAndTime ∨ method = GetCapabilities "All") ∧
      dev.CallMethod lockedNetwork method sent0 =
        (r, ((freshSession "192.168.1.10:80").CallMethod lockedNetwork GetSystemDateAndTime
          []).2) ∧
      rejected.Error = rejected.Inner.map (fun inner => rejected.Message ++ ":" ++ inner) ∧
      ((∃ err, r = .error err ∧ rejected.Inner = some err) ∨
       (∃ resp, r = .ok resp ∧ resp.StatusCode ≠ 200 ∧ rejected.Inner = none ∧
          rejected.Error = none)) :=
  ⟨rfl, NewDeviceWithUser_error lockedNetwork "192.168.1.10:80" "" "" [] _ rejected rfl⟩

/-! ## The clock synchroniser -/

/-- A response that cannot be read, or one without `UTCDateTime`, leaves the
session as it was. -/
theorem checkSystemDateAndTime_no_UTCDateTime (env : Env) (currentTime : Time) (dev : device)
    (resp : Response)
    (h : env.ReadFromString resp.Body = none ∨
      ∃ doc, env.ReadFromString resp.Body = some doc ∧
        FindElement doc
          [.tag "Envelope", .tag "Body", .tag "GetSystemDateAndTimeResponse",
           .tag "SystemDateAndTime", .tag "UTCDateTime"] = none) :
    dev.checkSystemDateAndTime env currentTime resp = some dev := by
  rcases h with h | ⟨doc, h, hu⟩
  · simp [device.checkSystemDateAndTime, h]
  · simp [device.checkSystemDateAndTime, h, hu]

/-- C2, the code at the failing inputs.  With `UTCDateTime` present but its
`Date` child missing, `checkSystemDateAndTime` does not return (nil
dereference); with the text `abc` in `Year` it returns with a non-zero
`timeDiff`, the year being read as 0. -/
theorem checkSystemDateAndTime_malformed :
    (bootstrapSession.checkSystemDateAndTime liveNetwork noon ⟨200, "time: no Date"⟩).isNone =
      true ∧
    (Atoi "abc").2.isSome = true ∧
    ((bootstrapSession.checkSystemDateAndTime liveNetwork noon
      ⟨200, "time: Year is abc"⟩).map fun dev => dev.timeDiff) = some minInt64 := by
  decide

/-- C3, counterexample.  The device reports 2400-01-01 00:00:00 and the local
clock reads the Unix epoch: `timeDiff` becomes the largest duration, not the
difference of the two instants.  And when the device reports the year
292277026597 the 64-bit second count of `time.Date` wraps around: `timeDiff`
becomes the smallest duration although the device time lies after the local
time. -/
theorem checkSystemDateAndTime_saturates :
    (ValidTimeResponse liveNetwork ⟨200, "time: 2400-01-01 00:00:00"⟩ 2400 1 1 0 0 0 ∧
      CalendarFields 2400 1 1 0 0 0 ∧
      ((bootstrapSession.checkSystemDateAndTime liveNetwork unixEpoch
        ⟨200, "time: 2400-01-01 00:00:00"⟩).map fun dev => dev.timeDiff) =
        some 9223372036854775807 ∧
      calendarSeconds 2400 1 1 0 0 0 * 1000000000 - unixEpoch.nanos =
        13569465600000000000 ∧
      ((bootstrapSession.checkSystemDateAndTime liveNetwork unixEpoch
        ⟨200, "time: 2400-01-01 00:00:00"⟩).map fun dev => dev.timeDiff) ≠
        some (calendarSeconds 2400 1 1 0 0 0 * 1000000000 - unixEpoch.nanos)) ∧
    (ValidTimeResponse farFutureNetwork ⟨200, "time: 292277026597-01-01 00:00:00"⟩
        292277026597 1 1 0 0 0 ∧
      ((bootstrapSession.checkSystemDateAndTime farFutureNetwork noon
        ⟨200, "time: 292277026597-01-01 00:00:00"⟩).map fun dev => dev.timeDiff) =
        some (-9223372036854775808) ∧
      0 < calendarSeconds 292277026597 1 1 0 0 0 * 1000000000 - noon.nanos) :=
  ⟨⟨⟨_, _, _, _, _, _, _, _, _, _, rfl, rfl, rfl, rfl, rfl, by decide, rfl, by decide, rfl,
      by decide, rfl, by decide, rfl, by decide, rfl, by decide⟩,
      by unfold CalendarFields; decide, by decide, by decide, by decide⟩,
    ⟨_, _, _, _, _, _, _, _, _, _, rfl, rfl, rfl, rfl, rfl, by decide, rfl, by decide, rfl,
      by decide, rfl, by decide, rfl, by decide, rfl, by decide⟩, by decide, by decide⟩

/-- C3, amended.  For a valid time-query response whose UTC fields
`(Y, M, D, h, m, s)` are calendar fields (month 1 to 12, day 1 to 31, hour 0 to
23, minute and second 0 to 59, year between -292277022399 and 292277022399) and
the local instant `t` read at the start, `checkSystemDateAndTime` returns with
`timeDiff` equal to `deviceTime - t` in nanoseconds whenever that difference
fits a 64-bit duration, and equal to the largest or smallest duration when it
lies above or below that range; `deviceTime` is the UTC instant with those
calendar fields and zero nanoseconds.  Nothing else in the session changes and
the previous `timeDiff` plays no part. -/
theorem checkSystemDateAndTime_offset (env : Env) (t : Time) (dev : device)
    (resp : Response) (Y M D h m s : Int) (hv : ValidTimeResponse env resp Y M D h m s)
    (hc : CalendarFields Y M D h m s) :
    ∃ dev', dev.checkSystemDateAndTime env t resp = some dev' ∧
      dev' = { dev with timeDiff := dev'.timeDiff } ∧
      (minInt64 ≤ calendarSeconds Y M D h m s * 1000000000 - t.nanos →
        calendarSeconds Y M D h m s * 1000000000 - t.nanos ≤ maxInt64 →
        dev'.timeDiff = calendarSeconds Y M D h m s * 1000000000 - t.nanos) ∧
      (maxInt64 < calendarSeconds Y M D h m s * 1000000000 - t.nanos →
        dev'.timeDiff = maxInt64) ∧
      (calendarSeconds Y M D h m s * 1000000000 - t.nanos < minInt64 →
        dev'.timeDiff = minInt64) ∧
      ∀ previous : Int,
        ({ dev with timeDiff := previous } : device).checkSystemDateAndTime env t resp =
          some dev' := by
  have hn : (Date Y M D h m s 0).nanos = calendarSeconds Y M D h m s * 1000000000 := by
    rw [Date_eq_calendarSeconds Y M D h m s hc]
    simp [Time.nanos]
  have hsub := Sub_eq (Date Y M D h m s 0) t
  rw [hn] at hsub
  refine ⟨_, checkSystemDateAndTime_valid env t dev resp Y M D h m s hv, rfl,
    hsub.1, hsub.2.1, hsub.2.2, ?_⟩
  intro previous
  exact checkSystemDateAndTime_valid env t _ resp Y M D h m s hv

/-- Witness of C3: the device is five seconds ahead of the local clock. -/
theorem checkSystemDateAndTime_offset_witness :
    ValidTimeResponse liveNetwork ⟨200, "time: 2024-03-01 12:00:05"⟩ 2024 3 1 12 0 5 ∧
    CalendarFields 2024 3 1 12 0 5 ∧
    calendarSeconds 2024 3 1 12 0 5 * 1000000000 - noon.nanos = 5000000000 ∧
    ∃ dev', bootstrapSession.checkSystemDateAndTime liveNetwork noon
        ⟨200, "time: 2024-03-01 12:00:05"⟩ = some dev' ∧
      dev' = { bootstrapSession with timeDiff := dev'.timeDiff } ∧
      (minInt64 ≤ calendarSeconds 2024 3 1 12 0 5 * 1000000000 - noon.nanos →
        calendarSeconds 2024 3 1 12 0 5 * 1000000000 - noon.nanos ≤ maxInt64 →
        dev'.timeDiff = calendarSeconds 2024 3 1 12 0 5 * 1000000000 - noon.nanos) ∧
      (maxInt64 < calendarSeconds 2024 3 1 12 0 5 * 1000000000 - noon.nanos →
        dev'.timeDiff = maxInt64) ∧
      (calendarSeconds 2024 3 1 12 0 5 * 1000000000 - noon.nanos < minInt64 →
        dev'.timeDiff = minInt64) ∧
      ∀ previous : Int,
        ({ bootstrapSession with timeDiff := previous } : device).checkSystemDateAndTime
            liveNetwork noon ⟨200, "time: 2024-03-01 12:00:05"⟩ = some dev' :=
  ⟨⟨_, _, _, _, _, _, _, _, _, _, rfl, rfl, rfl, rfl, rfl, by decide, rfl, by decide, rfl,
      by decide, rfl, by decide, rfl, by decide, rfl, by decide⟩,
    by unfold CalendarFields; decide,
    by decide,
    checkSystemDateAndTime_offset liveNetwork noon bootstrapSession
      ⟨200, "time: 2024-03-01 12:00:05"⟩ 2024 3 1 12 0 5
      ⟨_, _, _, _, _, _, _, _, _, _, rfl, rfl, rfl, rfl, rfl, by decide, rfl, by decide, rfl,
        by decide, rfl, by decide, rfl, by decide, rfl, by decide⟩
      (by unfold CalendarFields; decide)⟩

/-! ## The endpoint directory -/

/-- C4, counterexample.  A fresh session holds the bootstrap `Device` endpoint;
after a capability response whose only pair is `Media`, the map still maps
`Device`, a mapping that is not among the pairs of the response. -/
theorem getSupportedServices_keeps_bootstrap :
    liveNetwork.ReadFromString "capabilities: Media" =
      some (capabilitiesResponse [("Media", "http://192.168.1.10:80/onvif/media_service")]) ∧
    capabilityPairs
        (capabilitiesResponse [("Media", "http://192.168.1.10:80/onvif/media_service")]) =
      [("Media", "http://192.168.1.10:80/onvif/media_service")] ∧
    (bootstrapSession.getSupportedServices liveNetwork
      ⟨200, "capabilities: Media"⟩).GetServices "Device" =
      some "http://192.168.1.10:80/onvif/device_service" ∧
    (bootstrapSession.getSupportedServices liveNetwork
      ⟨200, "capabilities: Media"⟩).GetServices "Device" ≠
      lastXAddr [("Media", "http://192.168.1.10:80/onvif/media_service")] "Device" :=
  ⟨rfl, by decide, by decide, by decide⟩

/-- C4, amended.  After `getSupportedServices` on a readable capability
response, the map returned by `GetServices` maps every category of the response
to the XAddr of its last occurrence, keeps the entry it had for every category
that does not occur in the response (such as the bootstrap `Device` entry), and
contains nothing else. -/
theorem getSupportedServices_endpoints (env : Env) (dev : device) (resp : Response)
    (doc : Element) (hd : env.ReadFromString resp.Body = some doc) (category : String) :
    (dev.getSupportedServices env resp).GetServices category =
      ((lastXAddr (capabilityPairs doc) category).orElse fun _ => dev.GetServices category) := by
  simp only [device.getSupportedServices, hd, device.GetServices, capabilityPairs]
  exact foldl_addEndpoint _ dev category

/-- Witness of C4: the `Media` entry after a response listing only `Media`. -/
theorem getSupportedServices_endpoints_witness :
    liveNetwork.ReadFromString (⟨200, "capabilities: Media"⟩ : Response).Body =
      some (capabilitiesResponse [("Media", "http://192.168.1.10:80/onvif/media_service")]) ∧
    (bootstrapSession.getSupportedServices liveNetwork
      ⟨200, "capabilities: Media"⟩).GetServices "Media" =
      ((lastXAddr (capabilityPairs
          (capabilitiesResponse [("Media", "http://192.168.1.10:80/onvif/media_service")]))
        "Media").orElse fun _ => bootstrapSession.GetServices "Media") :=
  ⟨rfl, getSupportedServices_endpoints liveNetwork bootstrapSession
    ⟨200, "capabilities: Media"⟩
    (capabilitiesResponse [("Media", "http://192.168.1.10:80/onvif/media_service")]) rfl
    "Media"⟩

/-! ## Discovery: address extraction -/

/-- C9, counterexample.  For the empty `XAddrs` text the '/'-split has a single
segment and the index-2 segment does not exist. -/
theorem hostOfXAddrs_empty :
    Split "" ' ' = [""] ∧ Split "" '/' = [""] ∧ hostOfXAddrs "" = none := by
  decide

/-- C9, amended.  For an `XAddrs` text whose first space-separated URI is
`scheme://host/path`, with no `'/'` and no space in `scheme` and `host`, the
extracted address is `host` (with its port, if any); and for an arbitrary text
the extraction is defined exactly when the part before the first space contains
at least two `'/'`. -/
theorem hostOfXAddrs_host (scheme host path rest : String)
    (hs : ' ' ∉ scheme.data ∧ '/' ∉ scheme.data) (hh : ' ' ∉ host.data ∧ '/' ∉ host.data)
    (hp : ' ' ∉ path.data) (hr : rest = "" ∨ ∃ more, rest = " " ++ more) :
    hostOfXAddrs (scheme ++ "://" ++ host ++ "/" ++ path ++ rest) = some host ∧
    ∀ text : String,
      (hostOfXAddrs text).isSome ↔ 2 ≤ ((Split text ' ').headD "").data.count '/' :=
  ⟨hostOfXAddrs_uri scheme host path rest hs hh hp hr, hostOfXAddrs_isSome⟩

/-- Witness of C9: an IPv4 address with port followed by a second URI. -/
theorem hostOfXAddrs_host_witness :
    ((' ' ∉ "http".data ∧ '/' ∉ "http".data) ∧
      (' ' ∉ "192.168.1.10:80".data ∧ '/' ∉ "192.168.1.10:80".data) ∧
      ' ' ∉ "onvif/device_service".data) ∧
    (hostOfXAddrs ("http" ++ "://" ++ "192.168.1.10:80" ++ "/" ++ "onvif/device_service" ++
        " http://[fe80::1]/onvif/device_service") = some "192.168.1.10:80" ∧
      ∀ text : String,
        (hostOfXAddrs text).isSome ↔ 2 ≤ ((Split text ' ').headD "").data.count '/') :=
  ⟨by decide, hostOfXAddrs_host "http" "192.168.1.10:80" "onvif/device_service"
    " http://[fe80::1]/onvif/device_service" (by decide) (by decide) (by decide)
    (Or.inr ⟨"http://[fe80::1]/onvif/device_service", rfl⟩)⟩

/-! ## Discovery: deduplication -/

/-- C7, counterexample.  Nothing answers, and the announcement yields the
address `192.168.1.10:80` twice: construction is attempted at both occurrences. -/
theorem discovery_retries_failed_address :
    candidates deadNetwork "eth0" = ["192.168.1.10:80", "192.168.1.10:80"] ∧
    ((discoverWith deadNetwork (journalled (NewDevice deadNetwork)) "eth0" ([], [])).map
        fun r => r.2.2) =
      some [("192.168.1.10:80", false), ("192.168.1.10:80", false)] := by
  decide

/-- C7, amended.  In one discovery pass over well-formed announcements the
journal of construction attempts is exactly this: going through the candidate
addresses in order, an occurrence is attempted if and only if no earlier attempt
at that address returned a session.  So every address is attempted at its first
occurrence, an address whose attempts all failed is attempted at each of its
occurrences, and an attempt that returned a session is the last attempt at its
address (this last part holds for every pass that returns).  The journal is that
of the run of `GetAvailableDevicesAtSpecificEthernetInterface` itself. -/
theorem discovery_attempts (env : Env) (interfaceName : String) (sent : List Request)
    (journal : List (String × Bool))
    (h : ((discoverWith env (journalled (NewDevice env)) interfaceName (sent, [])).map
        fun r => r.2.2) = some journal) :
    ((discoverWith env (journalled (NewDevice env)) interfaceName (sent, [])).map
        fun r => (r.1, r.2.1)) =
      GetAvailableDevicesAtSpecificEthernetInterface env interfaceName sent ∧
    (∀ pre a post, journal = pre ++ (a, true) :: post → a ∉ post.map Prod.fst) ∧
    (WellFormedAnnouncements env interfaceName →
      Attempts [] (candidates env interfaceName) journal ∧
      (∀ a ∈ candidates env interfaceName, a ∈ journal.map Prod.fst) ∧
      ∀ a, (∀ r, (a, r) ∈ journal → r = false) →
        (journal.map Prod.fst).count a = (candidates env interfaceName).count a) := by
  refine ⟨announcementLoop_erase env (NewDevice env) _ _ _ _, ?_⟩
  cases hr : discoverWith env (journalled (NewDevice env)) interfaceName (sent, []) with
  | none => rw [hr] at h; simp at h
  | some r =>
    obtain ⟨devs, sent', j⟩ := r
    rw [hr] at h
    simp only [Option.map_some', Option.some.injEq] at h
    subst h
    have hx : ∀ a st d st', NewDevice env a st = some (.ok d, st') → d.xaddr = a :=
      fun a st d st' hd => NewDevice_xaddr env a st st' d hd
    have hok : JournalOk ([] : List (String × Bool)) := by
      intro pre a post e
      simp at e
    refine ⟨announcementLoop_journal env (NewDevice env) hx _ _ _ _ _ _ _ hok (by simp) hr,
      ?_⟩
    intro hw
    obtain ⟨jn, hj, hA⟩ := announcementLoop_attempts env (NewDevice env) hx
      (probe env interfaceName) hw _ _ _ _ _ _ hr
    simp only [List.nil_append] at hj
    subst hj
    have hA' : Attempts [] (candidates env interfaceName) j := hA
    exact ⟨hA', fun a ha => Attempts_mem _ _ _ hA' a ha (by simp),
      fun a hf => Attempts_count _ a _ _ hA' (by simp) hf⟩

/-- Witness of C7: the pass `[A, B, A, C, B]` with `B` unreachable; `B` is attempted
twice, `A` and `C` once. -/
theorem discovery_attempts_witness :
    (((discoverWith liveNetwork (journalled (NewDevice liveNetwork)) "eth0" ([], [])).map
        fun r => r.2.2) =
      some [("192.168.1.10:80", true), ("192.168.1.11:80", false), ("192.168.1.12:80", true),
        ("192.168.1.11:80", false)]) ∧
    WellFormedAnnouncements liveNetwork "eth0" ∧
    candidates liveNetwork "eth0" =
      ["192.168.1.10:80", "192.168.1.11:80", "192.168.1.10:80", "192.168.1.12:80",
        "192.168.1.11:80"] ∧
    (((discoverWith liveNetwork (journalled (NewDevice liveNetwork)) "eth0" ([], [])).map
        fun r => (r.1, r.2.1)) =
      GetAvailableDevicesAtSpecificEthernetInterface liveNetwork "eth0" [] ∧
    (∀ pre a post,
      [("192.168.1.10:80", true), ("192.168.1.11:80", false), ("192.168.1.12:80", true),
        ("192.168.1.11:80", false)] = pre ++ (a, true) :: post → a ∉ post.map Prod.fst) ∧
    (WellFormedAnnouncements liveNetwork "eth0" →
      Attempts [] (candidates liveNetwork "eth0")
        [("192.168.1.10:80", true), ("192.168.1.11:80", false), ("192.168.1.12:80", true),
          ("192.168.1.11:80", false)] ∧
      (∀ a ∈ candidates liveNetwork "eth0",
        a ∈ ([("192.168.1.10:80", true), ("192.168.1.11:80", false),
          ("192.168.1.12:80", true), ("192.168.1.11:80", false)] :
            List (String × Bool)).map Prod.fst) ∧
      ∀ a, (∀ r, (a, r) ∈ ([("192.168.1.10:80", true), ("192.168.1.11:80", false),
            ("192.168.1.12:80", true), ("192.168.1.11:80", false)] : List (String × Bool)) →
          r = false) →
        (([("192.168.1.10:80", true), ("192.168.1.11:80", false),
          ("192.168.1.12:80", true), ("192.168.1.11:80", false)] :
            List (String × Bool)).map Prod.fst).count a =
          (candidates liveNetwork "eth0").count a)) :=
  ⟨by decide, liveNetwork_wellFormed, by decide,
    discovery_attempts liveNetwork "eth0" [] _ (by decide)⟩

/-- C8.  When every announcement is well formed and the outcome of a
construction is a fixed function `f` of the address, the list returned by
`GetAvailableDevicesAtSpecificEthernetInterface` consists of the sessions `f`
yields for the distinct candidate addresses, in order of first occurrence,
leaving out exactly the addresses whose construction fails; each session bears
its address, no address occurs twice, and an address has a session in the result
exactly when it is a candidate whose construction succeeds. -/
theorem discovery_result (env : Env) (interfaceName : String) (sent : List Request)
    (f : String → Except onvifError device)
    (hw : WellFormedAnnouncements env interfaceName)
    (hf : ∀ a st, ∃ st', NewDevice env a st = some (f a, st')) :
    ∃ devs sent',
      GetAvailableDevicesAtSpecificEthernetInterface env interfaceName sent =
        some (devs, sent') ∧
      devs = (firstOccurrences (candidates env interfaceName)).filterMap
        (fun a => (f a).toOption) ∧
      devs.map device.xaddr = (firstOccurrences (candidates env interfaceName)).filter
        (fun a => (f a).toOption.isSome) ∧
      (devs.map device.xaddr).Nodup ∧
      ∀ a, a ∈ devs.map device.xaddr ↔
        a ∈ candidates env interfaceName ∧ (f a).toOption.isSome := by
  have hx : ∀ a d, f a = .ok d → d.xaddr = a := by
    intro a d hd
    obtain ⟨st', h⟩ := hf a []
    rw [hd] at h
    exact NewDevice_xaddr env a [] st' d h
  obtain ⟨st', h⟩ := announcementLoop_fixed env (NewDevice env) f hf (probe env interfaceName)
    hw [] sent
  have hfold := foldl_accept f hx (candidates env interfaceName) []
  simp only [List.map_nil, List.not_mem_nil, not_false_eq_true, decide_True, List.filter_true,
    List.nil_append] at hfold
  have hmap : ((firstOccurrences (candidates env interfaceName)).filterMap
      (fun a => (f a).toOption)).map device.xaddr =
      (firstOccurrences (candidates env interfaceName)).filter
        (fun a => (f a).toOption.isSome) := by
    generalize firstOccurrences (candidates env interfaceName) = l
    induction l with
    | nil => rfl
    | cons a l ih =>
      cases hfa : f a with
      | error e =>
        have hto : (f a).toOption = none := by rw [hfa]; rfl
        simp only [List.filterMap_cons, List.filter_cons, hto, Option.isSome_none, ih]
        rfl
      | ok d =>
        have hto : (f a).toOption = some d := by rw [hfa]; rfl
        simp only [List.filterMap_cons, List.filter_cons, hto, Option.isSome_some, ih,
          List.map_cons, hx a d hfa]
        rfl
  refine ⟨_, st', ?_, rfl, hmap, ?_, ?_⟩
  · rw [← hfold]
    exact h
  · rw [hmap]
    exact (firstOccurrences_nodup _).filter _
  · intro a
    rw [hmap, List.mem_filter, mem_firstOccurrences]

/-- Witness of C8: the pass `[A, B, A, C, B]` with `B` unreachable returns the
sessions of `A` and `C`. -/
theorem discovery_result_witness :
    candidates liveNetwork "eth0" =
      ["192.168.1.10:80", "192.168.1.11:80", "192.168.1.10:80", "192.168.1.12:80",
        "192.168.1.11:80"] ∧
    firstOccurrences (candidates liveNetwork "eth0") =
      ["192.168.1.10:80", "192.168.1.11:80", "192.168.1.12:80"] ∧
    ((GetAvailableDevicesAtSpecificEthernetInterface liveNetwork "eth0" []).map
        fun r => r.1.map device.xaddr) = some ["192.168.1.10:80", "192.168.1.12:80"] ∧
    ∃ devs sent',
      GetAvailableDevicesAtSpecificEthernetInterface liveNetwork "eth0" [] =
        some (devs, sent') ∧
      devs = (firstOccurrences (candidates liveNetwork "eth0")).filterMap
        (fun a => (liveOutcome a).toOption) ∧
      devs.map device.xaddr = (firstOccurrences (candidates liveNetwork "eth0")).filter
        (fun a => (liveOutcome a).toOption.isSome) ∧
      (devs.map device.xaddr).Nodup ∧
      ∀ a, a ∈ devs.map device.xaddr ↔
        a ∈ candidates liveNetwork "eth0" ∧ (liveOutcome a).toOption.isSome :=
  ⟨by decide, by decide, by decide,
    discovery_result liveNetwork "eth0" [] liveOutcome liveNetwork_wellFormed
      liveNetwork_NewDevice⟩

end Goonvif
